import Mathlib

/-!
Verification development for the hyperliquid-ob trading bot.

This file gives a shallow embedding, in Lean 4, of the algorithmic core of the
repository — the Order Block detector, the entry sizing and order routing of
Entry Monitor v3.2, the position-liveness check of the Position Monitor, and
the account-protection gate — and proves (or refutes) the frozen claims about
them.

Modelling conventions:
* JavaScript numbers are modelled as rationals (ℚ).  All arithmetic in the
  embedded code is exact comparisons, `+`, `-`, `*`, `/`, `Math.abs`,
  `Math.floor`, `Math.min/max` and `Math.pow` with natural exponents, which
  ℚ models faithfully; division by zero yields 0 in ℚ where JS would yield
  Infinity/NaN — every theorem that could be affected carries an explicit
  non-degeneracy hypothesis.
* `Math.sqrt` (used only by the detector's 'stddev' volume method) has no ℚ
  counterpart; the embedding is parametric in a function `sqrtFn : ℚ → ℚ`
  standing for it, so every theorem holds for any square-root approximation.
* Async external effects (store reads/writes, exchange calls) are modelled by
  passing their results in as explicit arguments and recording the writes the
  code performs in the returned record.
-/

namespace HyperliquidOB

/-- JavaScript `Array.prototype.slice(a, b)` for non-negative indices:
the elements from position `a` (inclusive) to `b` (exclusive), clamped to the
array bounds. -/
def jsSlice (l : List α) (a b : ℕ) : List α := (l.drop a).take (b - a)

/-- JavaScript `Math.max(...l)` — `none` models the `-Infinity` of an empty
spread (callers below always guard non-emptiness). -/
def jsMathMax : List ℚ → Option ℚ
  | [] => none
  | x :: xs => some (xs.foldl max x)

/-- JavaScript `Math.min(...l)` — `none` models the `Infinity` of an empty
spread. -/
def jsMathMin : List ℚ → Option ℚ
  | [] => none
  | x :: xs => some (xs.foldl min x)

/-- One OHLCV candle (`timestamp` is dropped: no claim mentions it).
`open_` is the candle's `open` price (`open` is a Lean keyword). -/
structure Candle where
  open_ : ℚ
  high : ℚ
  low : ℚ
  close : ℚ
  volume : ℚ
deriving Repr, DecidableEq, Inhabited

namespace Detector

/-! Embedding of `findPotentialOrderBlocks` from `src/unnamed/part_002`
(the Order Block detection module, "完全匹配 TradingView"). -/

/-- `OB_TYPE` from `constants.js`. -/
inductive OBType
  | BULLISH
  | BEARISH
deriving Repr, DecidableEq

/-- The `volumeMethod` string argument; `other` stands for any string not
matched by the `switch` (its `default` branch returns 0). -/
inductive VolumeMethod
  | percentile
  | sma
  | ema
  | stddev
  | other
deriving Repr, DecidableEq

/-- The parameters of `findPotentialOrderBlocks` (part_002 lines 10-17),
plus the `sqrtFn` abstraction of `Math.sqrt` described in the header. -/
structure DetParams where
  swingLength : ℕ
  volumeLookback : ℕ
  volumeMethod : VolumeMethod
  volumeParam : ℚ
  maxATRMultiplier : ℚ
  atr : Option ℚ
  sqrtFn : ℚ → ℚ

/-- A recorded swing point (part_002 lines 76, 82: the candle is spread into
the object together with `index` and `crossed`; only the fields read later
are kept). -/
structure Swing where
  high : ℚ
  low : ℚ
  index : ℕ
  crossed : Bool
deriving Repr, DecidableEq

/-- `{ ...klines[refIndex], index: refIndex, crossed: false }`. -/
def swingOfCandle (c : Candle) (index : ℕ) : Swing :=
  { high := c.high, low := c.low, index := index, crossed := false }

/-- The `confirmationCandle` sub-record of an emitted OB (part_002
lines 160-167, timestamp dropped). -/
structure ConfirmationInfo where
  index : ℕ
  close : ℚ
  high : ℚ
  low : ℚ
  volume : ℚ
deriving Repr, DecidableEq, Inhabited

/-- An emitted OB candidate (part_002 lines 155-182 / 252-279).
`swingIndex` is a ghost field not present in the JS object: it records the
`index` of the swing whose breakout produced this OB, and is used only to
state the per-swing invariants; it does not influence any computation. -/
structure OrderBlockCandidate where
  high : ℚ
  low : ℚ
  type : OBType
  creationIndex : ℕ
  confirmationCandle : ConfirmationInfo
  obCandle : Candle
  volume : ℚ
  obLowVolume : ℚ
  obHighVolume : ℚ
  confidence : String
  isValid : Bool
  isBroken : Bool
  swingIndex : ℕ
deriving Repr, DecidableEq

instance : Inhabited OrderBlockCandidate :=
  ⟨{ high := 0, low := 0, type := OBType.BULLISH, creationIndex := 0,
     confirmationCandle := default, obCandle := default, volume := 0,
     obLowVolume := 0, obHighVolume := 0, confidence := ("low"),
     isValid := true, isBroken := false, swingIndex := 0 }⟩

/-- `getVolumeThreshold` (part_002 lines 27-64).  JS sorts with the
comparator `(a, b) => a - b`; any ascending sort of rationals produces the
same list, so `mergeSort` is used.  `Math.floor` of the percentile rank is
`Int.floor`; `Int.toNat` is harmless since callers only pass `param > 0`. -/
def getVolumeThreshold (klines : List Candle) (sqrtFn : ℚ → ℚ)
    (startIndex endIndex : ℕ) (method : VolumeMethod) (param : ℚ) : ℚ :=
  let vols := ((jsSlice klines startIndex endIndex).map Candle.volume).filter
    (fun v => decide (0 < v))
  if vols = [] then 0
  else
    match method with
    | VolumeMethod.percentile =>
      let sorted := vols.mergeSort (fun a b => decide (a ≤ b))
      let idx := (⌊param / 100 * ((sorted.length : ℚ) - 1)⌋).toNat
      sorted.getD idx 0
    | VolumeMethod.sma =>
      let sum := vols.foldl (fun a b => a + b) 0
      let sma := sum / (vols.length : ℚ)
      sma * param
    | VolumeMethod.ema =>
      let k := 2 / ((vols.length : ℚ) + 1)
      let ema := vols.tail.foldl (fun ema v => v * k + ema * (1 - k)) (vols.headD 0)
      ema * param
    | VolumeMethod.stddev =>
      let sum := vols.foldl (fun a b => a + b) 0
      let mean := sum / (vols.length : ℚ)
      let variance := (vols.foldl (fun s v => s + (v - mean) ^ 2) 0) / (vols.length : ℚ)
      let stddev := sqrtFn variance
      mean + stddev * param
    | VolumeMethod.other => 0

/-- The swing-high test of one main-loop iteration (part_002 lines 68-77):
`klines[refIndex].high > Math.max(...windowSlice.map(c => c.high))` with
`windowSlice = klines.slice(refIndex + 1, i + 1)`. -/
def isSwingHighAt (klines : List Candle) (swingLength i : ℕ) : Bool :=
  let refIndex := i - swingLength
  let windowSlice := jsSlice klines (refIndex + 1) (i + 1)
  match jsMathMax (windowSlice.map Candle.high) with
  | none => false
  | some m => decide (m < (klines.getD refIndex default).high)

/-- The swing-low test (part_002 lines 79-83). -/
def isSwingLowAt (klines : List Candle) (swingLength i : ℕ) : Bool :=
  let refIndex := i - swingLength
  let windowSlice := jsSlice klines (refIndex + 1) (i + 1)
  match jsMathMin (windowSlice.map Candle.low) with
  | none => false
  | some m => decide ((klines.getD refIndex default).low < m)

/-- Lines 74-77: replace `lastSwingHigh` when the swing-high test fires. -/
def updatedSwingHigh (klines : List Candle) (swingLength i : ℕ)
    (lastSwingHigh : Option Swing) : Option Swing :=
  if isSwingHighAt klines swingLength i then
    some (swingOfCandle (klines.getD (i - swingLength) default) (i - swingLength))
  else lastSwingHigh

/-- Lines 80-83: replace `lastSwingLow` when the swing-low test fires. -/
def updatedSwingLow (klines : List Candle) (swingLength i : ℕ)
    (lastSwingLow : Option Swing) : Option Swing :=
  if isSwingLowAt klines swingLength i then
    some (swingOfCandle (klines.getD (i - swingLength) default) (i - swingLength))
  else lastSwingLow

/-- One iteration of the bullish box-selection loop (part_002 lines 116-126):
the accumulator is `(boxBottom, boxTop, boxIndex)`. -/
def bullishBoxStep (acc : ℚ × ℚ × ℕ) (jc : ℕ × Candle) : ℚ × ℚ × ℕ :=
  let candleMin := min jc.2.open_ jc.2.close
  let candleMax := max jc.2.open_ jc.2.close
  if candleMin < acc.1 then (candleMin, candleMax, jc.1) else acc

/-- The bullish box selection over `searchRange` (part_002 lines 111-126):
initialised from `searchRange[0]`, then the `j` loop (whose `j = 0` step is a
no-op because the comparison is strict). Returns `(boxBottom, boxTop,
boxIndex)`; the `[]` case is junk, callers guard non-emptiness. -/
def selectBullishBox : List Candle → ℚ × ℚ × ℕ
  | [] => (0, 0, 0)
  | c0 :: rest =>
    ((c0 :: rest).enum).foldl bullishBoxStep
      (min c0.open_ c0.close, max c0.open_ c0.close, 0)

/-- One iteration of the bearish box-selection loop (part_002 lines 216-226). -/
def bearishBoxStep (acc : ℚ × ℚ × ℕ) (jc : ℕ × Candle) : ℚ × ℚ × ℕ :=
  let candleMax := max jc.2.open_ jc.2.close
  let candleMin := min jc.2.open_ jc.2.close
  if acc.2.1 < candleMax then (candleMin, candleMax, jc.1) else acc

/-- The bearish box selection (part_002 lines 211-226), returning
`(boxBottom, boxTop, boxIndex)`. -/
def selectBearishBox : List Candle → ℚ × ℚ × ℕ
  | [] => (0, 0, 0)
  | c0 :: rest =>
    ((c0 :: rest).enum).foldl bearishBoxStep
      (min c0.open_ c0.close, max c0.open_ c0.close, 0)

/-- The confidence threshold of an emitted OB (part_002 lines 139-147 and
237-245): computed over `klines.slice(Math.max(0, swingIndex -
volumeLookback), i)` when the volume filter is enabled (`volumeParam > 0`),
otherwise 0.  Natural subtraction is exactly `Math.max(0, ...)`. -/
def confidenceThreshold (p : DetParams) (klines : List Candle)
    (swingIndex creationIndex : ℕ) : ℚ :=
  if 0 < p.volumeParam then
    getVolumeThreshold klines p.sqrtFn (swingIndex - p.volumeLookback)
      creationIndex p.volumeMethod p.volumeParam
  else 0

/-- The OB record pushed by the bullish block when the breakout at `i`
consumes the swing `sh` (part_002 lines 108-182): box selection over
`searchRange = klines.slice(sh.index, i)`, the three-candle volume
aggregate, and the confidence classification. -/
def bullishOBAt (p : DetParams) (klines : List Candle) (i : ℕ) (sh : Swing) :
    OrderBlockCandidate :=
  let currentCandle := klines.getD i default
  let searchRange := jsSlice klines sh.index i
  let box := selectBullishBox searchRange
  let obCandle := searchRange.getD box.2.2 default
  let totalVolume := currentCandle.volume
    + (if 1 ≤ i then (klines.getD (i - 1) default).volume else 0)
    + (if 2 ≤ i then (klines.getD (i - 2) default).volume else 0)
  let obLowVolume := if 2 ≤ i then (klines.getD (i - 2) default).volume else 0
  let obHighVolume := currentCandle.volume
    + (if 1 ≤ i then (klines.getD (i - 1) default).volume else 0)
  let confidence :=
    if confidenceThreshold p klines sh.index i ≤ obCandle.volume
    then ("high") else ("low")
  { high := box.2.1, low := box.1, type := OBType.BULLISH,
    creationIndex := i,
    confirmationCandle := { index := i, close := currentCandle.close,
                            high := currentCandle.high, low := currentCandle.low,
                            volume := currentCandle.volume },
    obCandle := obCandle, volume := totalVolume,
    obLowVolume := obLowVolume, obHighVolume := obHighVolume,
    confidence := confidence, isValid := true, isBroken := false,
    swingIndex := sh.index }

/-- The bullish OB identification block of one iteration (part_002
lines 91-186), acting on the `(lastSwingHigh, bullishOBs)` components.  The
JS mutation `lastSwingHigh.crossed = true` becomes a functional update. -/
def bullishStep (p : DetParams) (klines : List Candle) (i : ℕ)
    (lastSwingHigh : Option Swing) (bullishOBs : List OrderBlockCandidate) :
    Option Swing × List OrderBlockCandidate :=
  match lastSwingHigh with
  | none => (none, bullishOBs)
  | some sh =>
    let currentCandle := klines.getD i default
    if sh.crossed = false ∧ sh.high < currentCandle.close then
      let shouldCreateOB : Bool :=
        if 0 < p.volumeParam then
          decide (getVolumeThreshold klines p.sqrtFn (i - p.volumeLookback) i
            p.volumeMethod p.volumeParam ≤ currentCandle.volume)
        else true
      if shouldCreateOB then
        let sh' : Swing := { sh with crossed := true }
        let searchRange := jsSlice klines sh.index i
        if searchRange = [] then (some sh', bullishOBs)
        else
          let ob := bullishOBAt p klines i sh
          let obSize := |ob.high - ob.low|
          let passesATRCheck : Bool :=
            match p.atr with
            | none => true
            | some a => if a = 0 then true
                        else decide (obSize ≤ a * p.maxATRMultiplier)
          if passesATRCheck then (some sh', bullishOBs ++ [ob])
          else (some sh', bullishOBs)
      else (some sh, bullishOBs)
    else (some sh, bullishOBs)

/-- The OB record pushed by the bearish block when the breakdown at `i`
consumes the swing `sl` (part_002 lines 208-279); note `obLowVolume` and
`obHighVolume` are swapped relative to the bullish case, as in the source. -/
def bearishOBAt (p : DetParams) (klines : List Candle) (i : ℕ) (sl : Swing) :
    OrderBlockCandidate :=
  let currentCandle := klines.getD i default
  let searchRange := jsSlice klines sl.index i
  let box := selectBearishBox searchRange
  let obCandle := searchRange.getD box.2.2 default
  let totalVolume := currentCandle.volume
    + (if 1 ≤ i then (klines.getD (i - 1) default).volume else 0)
    + (if 2 ≤ i then (klines.getD (i - 2) default).volume else 0)
  let obLowVolume := currentCandle.volume
    + (if 1 ≤ i then (klines.getD (i - 1) default).volume else 0)
  let obHighVolume := if 2 ≤ i then (klines.getD (i - 2) default).volume else 0
  let confidence :=
    if confidenceThreshold p klines sl.index i ≤ obCandle.volume
    then ("high") else ("low")
  { high := box.2.1, low := box.1, type := OBType.BEARISH,
    creationIndex := i,
    confirmationCandle := { index := i, close := currentCandle.close,
                            high := currentCandle.high, low := currentCandle.low,
                            volume := currentCandle.volume },
    obCandle := obCandle, volume := totalVolume,
    obLowVolume := obLowVolume, obHighVolume := obHighVolume,
    confidence := confidence, isValid := true, isBroken := false,
    swingIndex := sl.index }

/-- The bearish OB identification block (part_002 lines 192-283), acting on
the `(lastSwingLow, bearishOBs)` components. -/
def bearishStep (p : DetParams) (klines : List Candle) (i : ℕ)
    (lastSwingLow : Option Swing) (bearishOBs : List OrderBlockCandidate) :
    Option Swing × List OrderBlockCandidate :=
  match lastSwingLow with
  | none => (none, bearishOBs)
  | some sl =>
    let currentCandle := klines.getD i default
    if sl.crossed = false ∧ currentCandle.close < sl.low then
      let shouldCreateOB : Bool :=
        if 0 < p.volumeParam then
          decide (getVolumeThreshold klines p.sqrtFn (i - p.volumeLookback) i
            p.volumeMethod p.volumeParam ≤ currentCandle.volume)
        else true
      if shouldCreateOB then
        let sl' : Swing := { sl with crossed := true }
        let searchRange := jsSlice klines sl.index i
        if searchRange = [] then (some sl', bearishOBs)
        else
          let ob := bearishOBAt p klines i sl
          let obSize := |ob.high - ob.low|
          let passesATRCheck : Bool :=
            match p.atr with
            | none => true
            | some a => if a = 0 then true
                        else decide (obSize ≤ a * p.maxATRMultiplier)
          if passesATRCheck then (some sl', bearishOBs ++ [ob])
          else (some sl', bearishOBs)
      else (some sl, bearishOBs)
    else (some sl, bearishOBs)

/-- The mutable state of the main loop. -/
structure DetState where
  bullishOBs : List OrderBlockCandidate
  bearishOBs : List OrderBlockCandidate
  lastSwingHigh : Option Swing
  lastSwingLow : Option Swing

def initDetState : DetState :=
  { bullishOBs := [], bearishOBs := [], lastSwingHigh := none, lastSwingLow := none }

/-- One iteration of the main loop (part_002 lines 67-284): the
`windowSlice.length === 0 → continue` guard, the two swing updates, then the
bullish and the bearish identification blocks (which act on disjoint state
components). -/
def detStep (p : DetParams) (klines : List Candle) (st : DetState) (i : ℕ) : DetState :=
  let refIndex := i - p.swingLength
  let windowSlice := jsSlice klines (refIndex + 1) (i + 1)
  if windowSlice = [] then st
  else
    let bull := bullishStep p klines i
      (updatedSwingHigh klines p.swingLength i st.lastSwingHigh) st.bullishOBs
    let bear := bearishStep p klines i
      (updatedSwingLow klines p.swingLength i st.lastSwingLow) st.bearishOBs
    { bullishOBs := bull.2, bearishOBs := bear.2,
      lastSwingHigh := bull.1, lastSwingLow := bear.1 }

/-- The `{ bullishOBs, bearishOBs }` object returned at part_002 line 286. -/
structure DetectorOutput where
  bullishOBs : List OrderBlockCandidate
  bearishOBs : List OrderBlockCandidate

/-- `findPotentialOrderBlocks` (part_002 lines 10-287): the main loop runs
`i` from `swingLength` to `klines.length - 1`. -/
def findPotentialOrderBlocks (klines : List Candle) (p : DetParams) : DetectorOutput :=
  let finalState := (List.range' p.swingLength (klines.length - p.swingLength)).foldl
    (detStep p klines) initDetState
  { bullishOBs := finalState.bullishOBs, bearishOBs := finalState.bearishOBs }

/-- The per-candidate facts established at push time: a well-formed range
(`low ≤ high`) and a confidence that is high exactly when the chosen range
candle's volume meets the threshold of `confidenceThreshold` for the
candidate's swing and breakout indices. -/
def ObReport (p : DetParams) (klines : List Candle) (ob : OrderBlockCandidate) : Prop :=
  ob.low ≤ ob.high
  ∧ (ob.confidence = ("high") ↔
      confidenceThreshold p klines ob.swingIndex ob.creationIndex ≤ ob.obCandle.volume)

/-- The loop invariant for one direction's `(swing, OB list)` pair, at the
point just before processing loop index `b`: every recorded candidate's
swing predates the reference index of `b`; so does the held swing; a held
uncrossed swing has produced no candidate yet; and no two candidates share a
swing. -/
def SwingPairInv (sl b : ℕ) (sw : Option Swing)
    (obs : List OrderBlockCandidate) : Prop :=
  (∀ ob ∈ obs, ob.swingIndex + sl < b)
  ∧ (∀ s, sw = some s → s.index + sl < b)
  ∧ (∀ ob ∈ obs, ∀ s, sw = some s → s.index = ob.swingIndex → s.crossed = true)
  ∧ (obs.map OrderBlockCandidate.swingIndex).Nodup

end Detector

namespace EntryMonitor

/-! Embedding of Entry Monitor v3.2 (`src/unnamed/part_005`): the position
calculation of step 5 (lines 316-357) and the entry strategy of step 6
(lines 360-509) together with the database updates of step 7 that the
claims observe (lines 513-599). -/

/-- Whether the selected OB opens a new position or adds to one. -/
inductive EntryAction
  | OPEN
  | ADD
deriving Repr, DecidableEq

/-- The risk amount of lines 321-334: for `OPEN`, `balance *
(riskPercent/100)`; for `ADD`, the same scaled by
`Math.pow(scaleDownFactor, additionCount + 1)`. -/
def riskAmountFor (action : EntryAction) (balance riskPercent scaleDownFactor : ℚ)
    (additionCount : ℕ) : ℚ :=
  match action with
  | EntryAction.OPEN => balance * (riskPercent / 100)
  | EntryAction.ADD =>
    let additionNumber := additionCount + 1
    let scaleFactor := scaleDownFactor ^ additionNumber
    balance * (riskPercent / 100) * scaleFactor

/-- The outcome of the sizing block. -/
structure EntrySizing where
  riskAmount : ℚ
  positionSize : ℚ
deriving Repr, DecidableEq

/-- Lines 321-337: `positionSize = riskAmount / riskDistance`, then
`Math.floor(positionSize / sizeIncrement) * sizeIncrement`.  `leverage` is an
argument because `config.leverage` is in scope at this point of the code; the
sizing reads none of it. -/
def positionCalc (action : EntryAction)
    (balance riskPercent leverage scaleDownFactor : ℚ) (additionCount : ℕ)
    (currentPrice stopLoss sizeIncrement : ℚ) : EntrySizing :=
  let riskAmount := riskAmountFor action balance riskPercent scaleDownFactor additionCount
  let riskDistance := |currentPrice - stopLoss|
  let positionSize := riskAmount / riskDistance
  { riskAmount := riskAmount,
    positionSize := (⌊positionSize / sizeIncrement⌋ : ℚ) * sizeIncrement }

/-- Lines 352-353: `requiredMargin = positionValue / leverage` with
`positionValue = positionSize * currentPrice` — the only place leverage
enters (line 355 then compares it against `balance * 0.95`). -/
def requiredMargin (positionSize currentPrice leverage : ℚ) : ℚ :=
  positionSize * currentPrice / leverage

/-- The fields of a stored OB document read by the entry strategy. -/
structure EntryOB where
  top : ℚ
  bottom : ℚ
  type : Detector.OBType
  breakoutPrice : Option ℚ
  confirmationCandleClose : Option ℚ
  confidence : String
deriving Repr, DecidableEq

/-- `getBreakoutPrice` (part_005 lines 648-652).  The JS guard
`ob.breakoutPrice && ob.breakoutPrice > 0` (truthy and positive) is, for a
number-or-undefined field, exactly "defined and `> 0`". -/
def getBreakoutPrice (ob : EntryOB) : ℚ :=
  match ob.breakoutPrice with
  | some p =>
    if 0 < p then p
    else
      match ob.confirmationCandleClose with
      | some q => if 0 < q then q
                  else if ob.type = Detector.OBType.BULLISH then ob.top else ob.bottom
      | none => if ob.type = Detector.OBType.BULLISH then ob.top else ob.bottom
  | none =>
    match ob.confirmationCandleClose with
    | some q => if 0 < q then q
                else if ob.type = Detector.OBType.BULLISH then ob.top else ob.bottom
    | none => if ob.type = Detector.OBType.BULLISH then ob.top else ob.bottom

/-- The `orderStatus` values the code branches on. -/
inductive OrderStatusJs
  | filled
  | resting
  | cancelled
  | rejected
deriving Repr, DecidableEq

/-- The observable part of `placeOrderWithStopLoss`'s result. -/
structure OrderResultJs where
  success : Bool
  orderStatus : OrderStatusJs
deriving Repr, DecidableEq

/-- The observable part of `waitForOrderFill`'s result (lines 654-689). -/
structure FillResultJs where
  filled : Bool
  reason : String
deriving Repr, DecidableEq

/-- The configuration fields the routing reads. -/
structure EntryConfig where
  maxDeviationForMarket : ℚ
  maxDeviationForLimit : ℚ
  limitPriceAdjustment : ℚ
deriving Repr, DecidableEq

/-- The observables of one run of steps 6-7 that the claims talk about:
which order strategy was used, the final status written to the pending
Position document created by this run (`none` when none was created, i.e.
for `ADD`), whether `hl.cancelOrder` was invoked, whether the selected OB was
marked `isProcessed` (and with which reason), and the `action`/error field of
the returned JSON. -/
structure EntryOutcome where
  orderStrategy : Option String
  pendingStatus : Option String
  cancelledOrder : Bool
  obProcessed : Bool
  processedReason : Option String
  result : String
deriving Repr, DecidableEq

/-- The post-fill database update of step 7 (lines 513-599): the position
update/creation commits first, then the OB is marked processed, then the
trade log is written; a throw at any stage jumps to the catch at line 586.
`posUpdateOk`, `obUpdateOk`, `logOk` say which stages succeed; a failed stage
is assumed not to have committed. -/
def finalizeFill (action : EntryAction) (strategy : String)
    (posUpdateOk obUpdateOk logOk : Bool) : EntryOutcome :=
  if posUpdateOk = false then
    { orderStrategy := some strategy,
      pendingStatus := if action = EntryAction.OPEN then some ("PENDING") else none,
      cancelledOrder := false, obProcessed := false, processedReason := none,
      result := ("db_error") }
  else if obUpdateOk = false then
    { orderStrategy := some strategy,
      pendingStatus := if action = EntryAction.OPEN then some ("OPEN") else none,
      cancelledOrder := false, obProcessed := false, processedReason := none,
      result := ("db_error") }
  else
    { orderStrategy := some strategy,
      pendingStatus := if action = EntryAction.OPEN then some ("OPEN") else none,
      cancelledOrder := false, obProcessed := true,
      processedReason := some (if action = EntryAction.OPEN
        then ("position_opened") else ("position_added")),
      result := if logOk = false then ("db_error")
        else if action = EntryAction.OPEN
        then ("position_opened") else ("position_added") }

/-- The entry strategy of step 6 (lines 360-509) and its continuation into
step 7.  `orderResult` stands for the result of the single
`placeOrderWithStopLoss` call the taken branch performs, `fillResult` for the
result of `waitForOrderFill` when it is reached.  Prices sent to the
exchange, fees and e-mails are not modelled (no claim reads them); the limit
price adjustment/clamping of lines 417-428 only affects those. -/
def entryStrategy (cfg : EntryConfig) (action : EntryAction) (ob : EntryOB)
    (currentPrice : ℚ) (orderResult : OrderResultJs) (fillResult : FillResultJs)
    (posUpdateOk obUpdateOk logOk : Bool) : EntryOutcome :=
  let breakoutPrice := getBreakoutPrice ob
  let priceDeviation := |currentPrice - breakoutPrice| / breakoutPrice
  let deviationPercent := priceDeviation * 100
  if deviationPercent ≤ cfg.maxDeviationForMarket then
    if orderResult.success = false then
      { orderStrategy := some ("market"),
        pendingStatus := if action = EntryAction.OPEN then some ("FAILED") else none,
        cancelledOrder := false, obProcessed := false, processedReason := none,
        result := ("order_failed") }
    else if orderResult.orderStatus ≠ OrderStatusJs.filled then
      { orderStrategy := some ("market"),
        pendingStatus := if action = EntryAction.OPEN then some ("PENDING") else none,
        cancelledOrder := false, obProcessed := false, processedReason := none,
        result := ("order_failed") }
    else finalizeFill action ("market") posUpdateOk obUpdateOk logOk
  else if deviationPercent ≤ cfg.maxDeviationForLimit then
    if orderResult.success = true ∧ orderResult.orderStatus = OrderStatusJs.resting then
      if fillResult.filled then finalizeFill action ("limit") posUpdateOk obUpdateOk logOk
      else
        { orderStrategy := some ("limit"),
          pendingStatus := if action = EntryAction.OPEN then some ("CANCELLED") else none,
          cancelledOrder := true, obProcessed := false, processedReason := none,
          result := ("limit_not_filled") }
    else if orderResult.success = true ∧ orderResult.orderStatus = OrderStatusJs.filled then
      finalizeFill action ("limit") posUpdateOk obUpdateOk logOk
    else
      { orderStrategy := some ("limit"),
        pendingStatus := if action = EntryAction.OPEN then some ("PENDING") else none,
        cancelledOrder := false, obProcessed := false, processedReason := none,
        result := ("order_failed") }
  else
    { orderStrategy := none, pendingStatus := none, cancelledOrder := false,
      obProcessed := false, processedReason := none,
      result := ("skipped_large_deviation") }

end EntryMonitor

namespace Strategy

/-! Embedding of `src/functions/position-monitor/src/strategy.js`. -/

/-- `calculatePositionSize` (strategy.js lines 50-60): note this variant
multiplies the balance by the leverage before applying the risk percent —
the divergence from the reference path recorded in the spec. -/
def calculatePositionSize (balance leverage riskPercent entryPrice stopLoss : ℚ) :
    Except String ℚ :=
  let leveragedBalance := balance * leverage
  let riskAmount := leveragedBalance * (riskPercent / 100)
  let riskDistance := |entryPrice - stopLoss|
  if riskDistance ≤ 0 then Except.error ("Invalid stop loss distance")
  else Except.ok (riskAmount / riskDistance)

/-- `calculateAdditionSize` (strategy.js lines 208-215). -/
def calculateAdditionSize (additionCount : ℕ) (balance scaleDownFactor riskPerTrade : ℚ) : ℚ :=
  let scaleFactor := scaleDownFactor ^ (additionCount + 1)
  let baseRisk := balance * (riskPerTrade / 100)
  let additionRisk := baseRisk * scaleFactor
  additionRisk

end Strategy

namespace PositionMonitor

/-! Embedding of the position-liveness check of the Position Monitor
(`src/unnamed/part_000` lines 87-116). -/

/-- `SIDE` from `constants.js`. -/
inductive Side
  | LONG
  | SHORT
deriving Repr, DecidableEq

/-- The live position object returned by `hl.getPosition`; `szi` is the
signed size, possibly absent (`undefined`). -/
structure LivePositionJs where
  szi : Option ℚ
deriving Repr, DecidableEq

/-- The fields of the stored Position document the liveness check reads. -/
structure PositionDoc where
  side : Side
  avgEntryPrice : ℚ
  size : ℚ
  stopLoss : ℚ
deriving Repr, DecidableEq

/-- The update written at part_000 lines 93-106 when the position is gone. -/
structure CloseUpdate where
  status : String
  exitReason : String
  exitPrice : ℚ
  pnl : ℚ
deriving Repr, DecidableEq

/-- Line 89: `!livePosition || (livePosition.szi !== undefined &&
Math.abs(livePosition.szi) === 0)`. -/
def positionGone (livePosition : Option LivePositionJs) : Bool :=
  match livePosition with
  | none => true
  | some p =>
    match p.szi with
    | some s => decide (|s| = 0)
    | none => false

/-- Step 3.1 of the Position Monitor (lines 87-116): when the exchange
reports no live position, the local record is closed with
`exitReason = STOP_LOSS_TRIGGERED`, `exitPrice = stopLoss` and the pnl
computed from entry/stop/size; otherwise nothing is written here. -/
def livenessCheck (posDoc : PositionDoc) (livePosition : Option LivePositionJs) :
    Option CloseUpdate :=
  if positionGone livePosition then
    some { status := ("CLOSED"), exitReason := ("STOP_LOSS_TRIGGERED"),
           exitPrice := posDoc.stopLoss,
           pnl := if posDoc.side = Side.LONG
                  then (posDoc.stopLoss - posDoc.avgEntryPrice) * posDoc.size
                  else (posDoc.avgEntryPrice - posDoc.stopLoss) * posDoc.size }
  else none

end PositionMonitor

namespace AccountProtection

/-! Embedding of `checkAccountProtection` and `checkDrawdown` from the
account-protection module (`src/unnamed/part_006` lines 157-670). -/

/-- The `allowed`/`reason` part of a check result (stats, messages and
auxiliary figures carried by the JS objects are not read by the claims). -/
structure Verdict where
  allowed : Bool
  reason : Option String
deriving Repr, DecidableEq

/-- The body of `checkAccountProtection`'s `try` block (lines 210-279): the
sub-checks run in order, each may block (short-circuiting) or throw
(`Except.error`, aborting the rest).  The results of the awaited sub-calls
are passed in as `Except`-values abstracting `hl.getBalance`,
`checkDailyLoss`, `checkLossStreak`, `checkDrawdown` and
`checkCooldownPeriod`; `checkTradingHours` is a pure function and cannot
throw. -/
def checkAccountProtectionBody (timeCheck : Verdict)
    (balanceResult : Except String ℚ)
    (dailyCheck streakCheck drawdownCheck cooldownCheck : Except String Verdict) :
    Except String Verdict :=
  if timeCheck.allowed = false then Except.ok timeCheck
  else
    balanceResult.bind (fun _ =>
    dailyCheck.bind (fun d =>
    if d.allowed = false then Except.ok d
    else streakCheck.bind (fun s =>
    if s.allowed = false then Except.ok s
    else drawdownCheck.bind (fun dd =>
    if dd.allowed = false then Except.ok dd
    else cooldownCheck.bind (fun c =>
    if c.allowed = false then Except.ok c
    else Except.ok { allowed := true, reason := none })))))

/-- `checkAccountProtection` (lines 202-289): disabled protection allows
immediately (line 205); otherwise the body runs, and the catch at lines
280-288 converts any throw into a blocked verdict with reason
`protection_error`.  The codomain is `Verdict`, not `Except`: no exception
escapes. -/
def checkAccountProtection (enabled : Bool) (timeCheck : Verdict)
    (balanceResult : Except String ℚ)
    (dailyCheck streakCheck drawdownCheck cooldownCheck : Except String Verdict) :
    Verdict :=
  if enabled = false then { allowed := true, reason := some ("protection_disabled") }
  else
    match checkAccountProtectionBody timeCheck balanceResult dailyCheck
      streakCheck drawdownCheck cooldownCheck with
    | Except.ok v => v
    | Except.error _ => { allowed := false, reason := some ("protection_error") }

/-- The result of `checkDrawdown` (lines 429-498).  `newStoredPeak` records
the value of the stored `account_peak` record after the call: the code
creates it with `currentBalance` when absent (lines 456-470), overwrites it
with `currentBalance` when `currentBalance > recordedPeak` (lines 444-455),
and leaves it unchanged otherwise. -/
structure DrawdownResult where
  allowed : Bool
  reason : Option String
  drawdownPercent : ℚ
  peak : ℚ
  newStoredPeak : ℚ
deriving Repr, DecidableEq

/-- `checkDrawdown` (lines 429-498): `peak = Math.max(recordedPeak,
currentBalance)` (or `currentBalance` when no record exists), drawdown
percent `(peak - currentBalance) / peak * 100`, blocking when it reaches
`maxAccountDrawdown`. -/
def checkDrawdown (maxAccountDrawdown : ℚ) (storedPeak : Option ℚ)
    (currentBalance : ℚ) : DrawdownResult :=
  let peak := match storedPeak with
    | some recordedPeak => max recordedPeak currentBalance
    | none => currentBalance
  let newStoredPeak := match storedPeak with
    | some recordedPeak =>
      if recordedPeak < currentBalance then currentBalance else recordedPeak
    | none => currentBalance
  let drawdown := peak - currentBalance
  let drawdownPercent := drawdown / peak * 100
  if maxAccountDrawdown ≤ drawdownPercent then
    { allowed := false, reason := some ("max_drawdown"),
      drawdownPercent := drawdownPercent, peak := peak, newStoredPeak := newStoredPeak }
  else
    { allowed := true, reason := none,
      drawdownPercent := drawdownPercent, peak := peak, newStoredPeak := newStoredPeak }

/-- The stored peak threaded through a sequence of `checkDrawdown` calls
with the given balances (each scheduled run reads the record the previous
run left). -/
def runDrawdownChecks (maxAccountDrawdown : ℚ) (init : Option ℚ)
    (balances : List ℚ) : Option ℚ :=
  balances.foldl
    (fun stored b => some (checkDrawdown maxAccountDrawdown stored b).newStoredPeak)
    init

end AccountProtection

/-! Concrete data used by witnesses and counterexamples. -/

/-- Build a candle from open, high, low, close, volume. -/
def mkC (o h l c v : ℚ) : Candle :=
  { open_ := o, high := h, low := l, close := c, volume := v }

/-- An eight-candle series: four high-volume rising candles, then a spike
high at index 4 (a swing high recorded at iteration 6), two quiet candles,
and a high-volume breakout close at index 7. -/
def ex4 : List Candle :=
  [ mkC 99 100 98 100 1000
  , mkC 100 101 99 101 1000
  , mkC 101 102 100 102 1000
  , mkC 102 103 101 103 1000
  , mkC 90 110 89 95 10
  , mkC 96 105 94 95 5
  , mkC 97 104 96 104 8
  , mkC 105 111 103 111 2000 ]

/-- Detector parameters for `ex4`: percentile method, `swingLength = 2`,
`volumeLookback = 4`, no ATR filter. -/
def p4 : Detector.DetParams :=
  { swingLength := 2, volumeLookback := 4,
    volumeMethod := Detector.VolumeMethod.percentile, volumeParam := 70,
    maxATRMultiplier := 7/2, atr := none, sqrtFn := fun _ => 0 }

/-- The spec's liveness scenario: LONG, entry 60000, size 0.1, stop 59000. -/
def posW : PositionMonitor.PositionDoc :=
  { side := PositionMonitor.Side.LONG, avgEntryPrice := 60000, size := 1/10,
    stopLoss := 59000 }

/-- Entry routing thresholds for the C2 witness: market below 1%, limit
below 2%. -/
def cfgW : EntryMonitor.EntryConfig :=
  { maxDeviationForMarket := 1, maxDeviationForLimit := 2,
    limitPriceAdjustment := 1/5 }

/-- An OB document with a recorded breakout price of 100. -/
def obW : EntryMonitor.EntryOB :=
  { top := 101, bottom := 99, type := Detector.OBType.BULLISH,
    breakoutPrice := some 100, confirmationCandleClose := some 100,
    confidence := ("high") }

/-! Claim theorems. -/


/-- C1: in the reference position-opening path (Entry Monitor v3.2, OPEN
branch), for every balance, riskPercent, current price and stop-loss price
with a non-zero risk distance, the computed position size equals
`floor((balance * (riskPercent/100) / |currentPrice - stopLoss|) /
sizeIncrement) * sizeIncrement`; the risk amount is `balance *
(riskPercent/100)` and is not multiplied by leverage — the sizing result is
the same for every leverage, and leverage enters only the margin formula. -/
theorem C1_reference_open_sizing
    (balance riskPercent leverage scaleDownFactor currentPrice stopLoss sizeIncrement : ℚ)
    (h : currentPrice ≠ stopLoss) :
    (EntryMonitor.positionCalc EntryMonitor.EntryAction.OPEN balance riskPercent
        leverage scaleDownFactor 0 currentPrice stopLoss sizeIncrement).positionSize
      = (⌊balance * (riskPercent / 100) / |currentPrice - stopLoss| / sizeIncrement⌋ : ℚ)
          * sizeIncrement
    ∧ (EntryMonitor.positionCalc EntryMonitor.EntryAction.OPEN balance riskPercent
        leverage scaleDownFactor 0 currentPrice stopLoss sizeIncrement).riskAmount
      = balance * (riskPercent / 100)
    ∧ (∀ leverage2,
        EntryMonitor.positionCalc EntryMonitor.EntryAction.OPEN balance riskPercent
          leverage2 scaleDownFactor 0 currentPrice stopLoss sizeIncrement
        = EntryMonitor.positionCalc EntryMonitor.EntryAction.OPEN balance riskPercent
          leverage scaleDownFactor 0 currentPrice stopLoss sizeIncrement)
    ∧ EntryMonitor.requiredMargin
        ((EntryMonitor.positionCalc EntryMonitor.EntryAction.OPEN balance riskPercent
          leverage scaleDownFactor 0 currentPrice stopLoss sizeIncrement).positionSize)
        currentPrice leverage
      = (EntryMonitor.positionCalc EntryMonitor.EntryAction.OPEN balance riskPercent
          leverage scaleDownFactor 0 currentPrice stopLoss sizeIncrement).positionSize
        * currentPrice / leverage :=
  ⟨rfl, rfl, fun _ => rfl, rfl⟩

/-- C1 witness: the spec scenario — balance 10000, risk 1%, entry 60000,
stop 59000, increment 0.0001 gives size exactly 0.1, for leverage 2. -/
theorem C1_witness :
    ((60000 : ℚ) ≠ 59000)
    ∧ (EntryMonitor.positionCalc EntryMonitor.EntryAction.OPEN 10000 1 2 (1/2) 0
        60000 59000 (1/10000)).positionSize
      = (⌊(10000 : ℚ) * (1 / 100) / |(60000 : ℚ) - 59000| / (1/10000)⌋ : ℚ) * (1/10000)
    ∧ (EntryMonitor.positionCalc EntryMonitor.EntryAction.OPEN 10000 1 2 (1/2) 0
        60000 59000 (1/10000)).positionSize = 1/10 :=
  ⟨by norm_num,
   (C1_reference_open_sizing 10000 1 2 (1/2) 60000 59000 (1/10000) (by norm_num)).1,
   of_decide_eq_true (by with_unfolding_all rfl)⟩

/-- C3: for an OPEN position, when the exchange reports no live position
(absent, or a defined size equal to 0), the liveness check closes the local
record with exitReason STOP_LOSS_TRIGGERED, exitPrice the recorded stopLoss,
and pnl `(stopLoss - avgEntryPrice) * size` for LONG (negated for SHORT). -/
theorem C3_liveness_stop_close (posDoc : PositionMonitor.PositionDoc)
    (livePosition : Option PositionMonitor.LivePositionJs)
    (h : livePosition = none
      ∨ ∃ p, livePosition = some p ∧ p.szi = some 0) :
    ∃ u, PositionMonitor.livenessCheck posDoc livePosition = some u
      ∧ u.status = ("CLOSED")
      ∧ u.exitReason = ("STOP_LOSS_TRIGGERED")
      ∧ u.exitPrice = posDoc.stopLoss
      ∧ (posDoc.side = PositionMonitor.Side.LONG →
          u.pnl = (posDoc.stopLoss - posDoc.avgEntryPrice) * posDoc.size)
      ∧ (posDoc.side = PositionMonitor.Side.SHORT →
          u.pnl = -((posDoc.stopLoss - posDoc.avgEntryPrice) * posDoc.size)) := by
  have hg : PositionMonitor.positionGone livePosition = true := by
    rcases h with h | ⟨p, hp, hszi⟩
    · rw [h]; rfl
    · simp [PositionMonitor.positionGone, hp, hszi]
  refine ⟨_, by unfold PositionMonitor.livenessCheck; rw [if_pos hg], rfl, rfl, rfl, ?_, ?_⟩
  · intro hs; simp only [hs, if_pos]
  · intro hs
    have : posDoc.side ≠ PositionMonitor.Side.LONG := by rw [hs]; intro hc; cases hc
    simp only [if_neg this]
    ring

/-- C3 witness: the spec scenario — LONG entry 60000 size 0.1 stop 59000,
exchange reports size 0, closes with pnl -100. -/
theorem C3_witness :
    ∃ u, PositionMonitor.livenessCheck posW (some { szi := some 0 }) = some u
      ∧ u.exitReason = ("STOP_LOSS_TRIGGERED")
      ∧ u.exitPrice = 59000
      ∧ u.pnl = -100 := by
  obtain ⟨u, h1, _, h3, h4, h5, _⟩ :=
    C3_liveness_stop_close posW (some { szi := some 0 })
      (Or.inr ⟨{ szi := some 0 }, rfl, rfl⟩)
  refine ⟨u, h1, h3, ?_, ?_⟩
  · rw [h4]; with_unfolding_all rfl
  · rw [h5 rfl]; show (posW.stopLoss - posW.avgEntryPrice) * posW.size = -100
    with_unfolding_all rfl

/-- C7 counterexample: with balance 0 (so base risk 0), scaleDownFactor 1/2
satisfies `0 < s < 1` yet the risk amount for addition 2 is not strictly
less than for addition 1 — both are 0.  The claim as stated (for every
balance and riskPercent) is therefore false. -/
theorem C7_counterexample :
    ((0 : ℚ) < 1/2 ∧ (1/2 : ℚ) < 1)
    ∧ ¬ (EntryMonitor.riskAmountFor EntryMonitor.EntryAction.ADD 0 1 (1/2) 1
        < EntryMonitor.riskAmountFor EntryMonitor.EntryAction.ADD 0 1 (1/2) 0) :=
  ⟨⟨of_decide_eq_true (by with_unfolding_all rfl),
    of_decide_eq_true (by with_unfolding_all rfl)⟩,
   of_decide_eq_true (by with_unfolding_all rfl)⟩

/-- C7 (amended): the risk amount for addition number `N = additionCount + 1`
equals `balance * (riskPercent/100) * scaleDownFactor ^ N` (and agrees with
`calculateAdditionSize` of strategy.js); and whenever `0 < scaleDownFactor
< 1` and the base risk `balance * (riskPercent/100)` is positive, the risk
amount for addition `N+1` is strictly less than for addition `N`. -/
theorem C7_addition_scaling (balance riskPercent scaleDownFactor : ℚ)
    (additionCount : ℕ) :
    EntryMonitor.riskAmountFor EntryMonitor.EntryAction.ADD balance riskPercent
        scaleDownFactor additionCount
      = balance * (riskPercent / 100) * scaleDownFactor ^ (additionCount + 1)
    ∧ EntryMonitor.riskAmountFor EntryMonitor.EntryAction.ADD balance riskPercent
        scaleDownFactor additionCount
      = Strategy.calculateAdditionSize additionCount balance scaleDownFactor riskPercent
    ∧ (0 < scaleDownFactor → scaleDownFactor < 1 →
        0 < balance * (riskPercent / 100) →
        EntryMonitor.riskAmountFor EntryMonitor.EntryAction.ADD balance riskPercent
            scaleDownFactor (additionCount + 1)
          < EntryMonitor.riskAmountFor EntryMonitor.EntryAction.ADD balance riskPercent
            scaleDownFactor additionCount) := by
  refine ⟨rfl, ?_, ?_⟩
  · unfold EntryMonitor.riskAmountFor Strategy.calculateAdditionSize
    ring
  · intro h0 h1 hb
    show balance * (riskPercent / 100) * scaleDownFactor ^ (additionCount + 1 + 1)
      < balance * (riskPercent / 100) * scaleDownFactor ^ (additionCount + 1)
    have hp : scaleDownFactor ^ (additionCount + 1 + 1)
        < scaleDownFactor ^ (additionCount + 1) :=
      pow_lt_pow_right_of_lt_one₀ h0 h1 (Nat.lt_succ_self _)
    exact mul_lt_mul_of_pos_left hp hb

/-- C7 witness: balance 10000, risk 1%, factor 1/2 — addition 2 risks 25,
strictly less than addition 1's 50. -/
theorem C7_witness :
    ((0 : ℚ) < 1/2) ∧ ((1/2 : ℚ) < 1) ∧ ((0 : ℚ) < 10000 * ((1 : ℚ) / 100))
    ∧ EntryMonitor.riskAmountFor EntryMonitor.EntryAction.ADD 10000 1 (1/2) 1
      < EntryMonitor.riskAmountFor EntryMonitor.EntryAction.ADD 10000 1 (1/2) 0 :=
  ⟨of_decide_eq_true (by with_unfolding_all rfl),
   of_decide_eq_true (by with_unfolding_all rfl),
   of_decide_eq_true (by with_unfolding_all rfl),
   (C7_addition_scaling 10000 1 (1/2) 0).2.2
     (of_decide_eq_true (by with_unfolding_all rfl))
     (of_decide_eq_true (by with_unfolding_all rfl))
     (of_decide_eq_true (by with_unfolding_all rfl))⟩

/-- Helper for C8: the stored peak after one `checkDrawdown` call on an
existing record is `max` of the old peak and the balance. -/
theorem checkDrawdown_newStoredPeak (m p b : ℚ) :
    (AccountProtection.checkDrawdown m (some p) b).newStoredPeak
      = (if p < b then b else p) := by
  have hred : AccountProtection.checkDrawdown m (some p) b
      = (if m ≤ (max p b - b) / max p b * 100 then
          { allowed := false, reason := some ("max_drawdown"),
            drawdownPercent := (max p b - b) / max p b * 100, peak := max p b,
            newStoredPeak := if p < b then b else p }
        else
          { allowed := true, reason := none,
            drawdownPercent := (max p b - b) / max p b * 100, peak := max p b,
            newStoredPeak := if p < b then b else p }) := rfl
  rw [hred]
  split <;> rfl

/-- Helper for C8: folding `checkDrawdown` over any balance sequence never
decreases the stored peak. -/
theorem runDrawdownChecks_le (m : ℚ) :
    ∀ (bs : List ℚ) (p q : ℚ),
      AccountProtection.runDrawdownChecks m (some p) bs = some q → p ≤ q := by
  intro bs
  induction bs with
  | nil =>
    intro p q h
    simp only [AccountProtection.runDrawdownChecks, List.foldl_nil,
      Option.some.injEq] at h
    exact le_of_eq h
  | cons b bs ih =>
    intro p q h
    have hstep : p ≤ (AccountProtection.checkDrawdown m (some p) b).newStoredPeak := by
      rw [checkDrawdown_newStoredPeak]
      split
      · exact le_of_lt (by assumption)
      · exact le_refl p
    have hrest :
        AccountProtection.runDrawdownChecks m
          (some (AccountProtection.checkDrawdown m (some p) b).newStoredPeak) bs = some q := by
      simpa [AccountProtection.runDrawdownChecks, List.foldl_cons] using h
    exact le_trans hstep (ih _ q hrest)

/-- C8: the stored accountPeak never decreases.  For a single drawdown check
on a recorded peak `p` and balance `b`, the stored value afterwards is `b`
exactly when `b > p` (i.e. the record is updated only when the balance
strictly exceeds the peak) and is never below `p`; and across every sequence
of calls, the stored peak at the end is at least the stored peak at the
start, regardless of the balance sequence. -/
theorem C8_peak_monotone (m : ℚ) :
    (∀ p b : ℚ,
      (AccountProtection.checkDrawdown m (some p) b).newStoredPeak
        = (if p < b then b else p)
      ∧ p ≤ (AccountProtection.checkDrawdown m (some p) b).newStoredPeak)
    ∧ (∀ (p : ℚ) (bs : List ℚ) (q : ℚ),
        AccountProtection.runDrawdownChecks m (some p) bs = some q → p ≤ q) := by
  constructor
  · intro p b
    refine ⟨checkDrawdown_newStoredPeak m p b, ?_⟩
    rw [checkDrawdown_newStoredPeak]
    split
    · exact le_of_lt (by assumption)
    · exact le_refl p
  · exact fun p bs q h => runDrawdownChecks_le m bs p q h

/-- C8 witness: peak 100 with balances 90 then 120 — the single step keeps
the peak at 100 (90 does not exceed it), and the run ends at 120 ≥ 100. -/
theorem C8_witness :
    (AccountProtection.checkDrawdown 15 (some 100) 90).newStoredPeak
        = (if (100 : ℚ) < 90 then (90 : ℚ) else 100)
    ∧ (100 : ℚ) ≤ (AccountProtection.checkDrawdown 15 (some 100) 90).newStoredPeak
    ∧ AccountProtection.runDrawdownChecks 15 (some 100) [90, 120] = some 120
    ∧ (100 : ℚ) ≤ 120 :=
  ⟨((C8_peak_monotone 15).1 100 90).1,
   ((C8_peak_monotone 15).1 100 90).2,
   of_decide_eq_true (by with_unfolding_all rfl),
   (C8_peak_monotone 15).2 100 [90, 120] 120
     (of_decide_eq_true (by with_unfolding_all rfl))⟩

/-- C10: checkAccountProtection is fail-closed.  Its codomain is a plain
verdict (no exception escapes), and whenever the executed sub-checks throw —
i.e. the body of the try block evaluates to an error — the returned verdict
is blocked (`allowed = false`) with reason `protection_error`; consequently
an error during the protection check can never produce an ALLOW. -/
theorem C10_protection_fail_closed (timeCheck : AccountProtection.Verdict)
    (balanceResult : Except String ℚ)
    (dailyCheck streakCheck drawdownCheck cooldownCheck :
      Except String AccountProtection.Verdict) :
    (∀ msg, AccountProtection.checkAccountProtectionBody timeCheck balanceResult
        dailyCheck streakCheck drawdownCheck cooldownCheck = Except.error msg →
      AccountProtection.checkAccountProtection true timeCheck balanceResult
        dailyCheck streakCheck drawdownCheck cooldownCheck
        = { allowed := false, reason := some ("protection_error") })
    ∧ (∀ msg, (AccountProtection.checkAccountProtection true timeCheck balanceResult
        dailyCheck streakCheck drawdownCheck cooldownCheck).allowed = true →
      AccountProtection.checkAccountProtectionBody timeCheck balanceResult
        dailyCheck streakCheck drawdownCheck cooldownCheck ≠ Except.error msg) := by
  constructor
  · intro msg h
    unfold AccountProtection.checkAccountProtection
    rw [h]
    rfl
  · intro msg hall he
    have hblocked : AccountProtection.checkAccountProtection true timeCheck balanceResult
        dailyCheck streakCheck drawdownCheck cooldownCheck
        = { allowed := false, reason := some ("protection_error") } := by
      unfold AccountProtection.checkAccountProtection
      rw [he]
      rfl
    rw [hblocked] at hall
    exact Bool.false_ne_true hall

/-- C10 witness: a throwing balance query (all later checks passing) yields
the blocked `protection_error` verdict. -/
theorem C10_witness :
    AccountProtection.checkAccountProtectionBody
        { allowed := true, reason := none } (Except.error ("boom"))
        (Except.ok { allowed := true, reason := none })
        (Except.ok { allowed := true, reason := none })
        (Except.ok { allowed := true, reason := none })
        (Except.ok { allowed := true, reason := none })
      = Except.error ("boom")
    ∧ AccountProtection.checkAccountProtection true
        { allowed := true, reason := none } (Except.error ("boom"))
        (Except.ok { allowed := true, reason := none })
        (Except.ok { allowed := true, reason := none })
        (Except.ok { allowed := true, reason := none })
        (Except.ok { allowed := true, reason := none })
      = { allowed := false, reason := some ("protection_error") } :=
  ⟨rfl,
   (C10_protection_fail_closed { allowed := true, reason := none }
      (Except.error ("boom"))
      (Except.ok { allowed := true, reason := none })
      (Except.ok { allowed := true, reason := none })
      (Except.ok { allowed := true, reason := none })
      (Except.ok { allowed := true, reason := none })).1 ("boom") rfl⟩

/-- Helper for C2: every branch of the post-fill update reports the order
strategy it was entered with. -/
theorem finalizeFill_orderStrategy (action : EntryMonitor.EntryAction)
    (strategy : String) (posUpdateOk obUpdateOk logOk : Bool) :
    (EntryMonitor.finalizeFill action strategy posUpdateOk obUpdateOk logOk).orderStrategy
      = some strategy := by
  unfold EntryMonitor.finalizeFill
  split_ifs <;> rfl

/-- C2: the entry decision routes the selected OB three ways by the price
deviation from the breakout price (`deviationPercent = |currentPrice -
breakoutPrice| / breakoutPrice * 100`, compared against the percent-valued
thresholds exactly as the code does): at most `maxDeviationForMarket` a
market order is placed; strictly between that and `maxDeviationForLimit` a
limit order is placed, and if it rests unfilled past the wait the order is
cancelled, the pending position (OPEN path) is marked CANCELLED, the OB is
left unprocessed and the run returns "limit_not_filled"; above
`maxDeviationForLimit` nothing is placed and the OB is left unprocessed.
The breakout price falls back from the OB's recorded breakout price (when
positive) to its confirmation-candle close (when positive) to the OB edge. -/
theorem C2_entry_routing (cfg : EntryMonitor.EntryConfig)
    (action : EntryMonitor.EntryAction) (ob : EntryMonitor.EntryOB)
    (currentPrice : ℚ) (orderResult : EntryMonitor.OrderResultJs)
    (fillResult : EntryMonitor.FillResultJs) (posUpdateOk obUpdateOk logOk : Bool)
    (hbp : 0 < EntryMonitor.getBreakoutPrice ob)
    (hcfg : cfg.maxDeviationForMarket ≤ cfg.maxDeviationForLimit) :
    (|currentPrice - EntryMonitor.getBreakoutPrice ob| / EntryMonitor.getBreakoutPrice ob * 100
        ≤ cfg.maxDeviationForMarket →
      (EntryMonitor.entryStrategy cfg action ob currentPrice orderResult fillResult
        posUpdateOk obUpdateOk logOk).orderStrategy = some ("market"))
    ∧ (cfg.maxDeviationForMarket
        < |currentPrice - EntryMonitor.getBreakoutPrice ob| / EntryMonitor.getBreakoutPrice ob * 100 →
       |currentPrice - EntryMonitor.getBreakoutPrice ob| / EntryMonitor.getBreakoutPrice ob * 100
        ≤ cfg.maxDeviationForLimit →
      (EntryMonitor.entryStrategy cfg action ob currentPrice orderResult fillResult
        posUpdateOk obUpdateOk logOk).orderStrategy = some ("limit")
      ∧ (orderResult.success = true →
         orderResult.orderStatus = EntryMonitor.OrderStatusJs.resting →
         fillResult.filled = false →
          (EntryMonitor.entryStrategy cfg action ob currentPrice orderResult fillResult
            posUpdateOk obUpdateOk logOk).cancelledOrder = true
          ∧ (EntryMonitor.entryStrategy cfg action ob currentPrice orderResult fillResult
            posUpdateOk obUpdateOk logOk).result = ("limit_not_filled")
          ∧ (EntryMonitor.entryStrategy cfg action ob currentPrice orderResult fillResult
            posUpdateOk obUpdateOk logOk).obProcessed = false
          ∧ (action = EntryMonitor.EntryAction.OPEN →
              (EntryMonitor.entryStrategy cfg action ob currentPrice orderResult fillResult
                posUpdateOk obUpdateOk logOk).pendingStatus = some ("CANCELLED"))))
    ∧ (cfg.maxDeviationForLimit
        < |currentPrice - EntryMonitor.getBreakoutPrice ob| / EntryMonitor.getBreakoutPrice ob * 100 →
      (EntryMonitor.entryStrategy cfg action ob currentPrice orderResult fillResult
        posUpdateOk obUpdateOk logOk).orderStrategy = none
      ∧ (EntryMonitor.entryStrategy cfg action ob currentPrice orderResult fillResult
        posUpdateOk obUpdateOk logOk).obProcessed = false
      ∧ (EntryMonitor.entryStrategy cfg action ob currentPrice orderResult fillResult
        posUpdateOk obUpdateOk logOk).cancelledOrder = false
      ∧ (EntryMonitor.entryStrategy cfg action ob currentPrice orderResult fillResult
        posUpdateOk obUpdateOk logOk).result = ("skipped_large_deviation"))
    ∧ (∀ pr, ob.breakoutPrice = some pr → 0 < pr →
        EntryMonitor.getBreakoutPrice ob = pr)
    ∧ ((ob.breakoutPrice = none ∨ ∃ pr, ob.breakoutPrice = some pr ∧ ¬ 0 < pr) →
       ∀ cc, ob.confirmationCandleClose = some cc → 0 < cc →
        EntryMonitor.getBreakoutPrice ob = cc)
    ∧ ((ob.breakoutPrice = none ∨ ∃ pr, ob.breakoutPrice = some pr ∧ ¬ 0 < pr) →
       (ob.confirmationCandleClose = none ∨ ∃ cc, ob.confirmationCandleClose = some cc ∧ ¬ 0 < cc) →
        EntryMonitor.getBreakoutPrice ob
          = (if ob.type = Detector.OBType.BULLISH then ob.top else ob.bottom)) := by
  refine ⟨?_, ?_, ?_, ?_, ?_, ?_⟩
  · intro h1
    simp only [EntryMonitor.entryStrategy]
    rw [if_pos h1]
    split_ifs <;> first
      | rfl
      | exact finalizeFill_orderStrategy action ("market") posUpdateOk obUpdateOk logOk
  · intro h1 h2
    simp only [EntryMonitor.entryStrategy]
    rw [if_neg (not_le.mpr h1), if_pos h2]
    constructor
    · split_ifs <;> first
        | rfl
        | exact finalizeFill_orderStrategy action ("limit") posUpdateOk obUpdateOk logOk
    · intro hs hr hf
      rw [if_pos ⟨hs, hr⟩]
      have : ¬ (fillResult.filled = true) := by rw [hf]; exact Bool.false_ne_true
      rw [if_neg this]
      refine ⟨rfl, rfl, rfl, ?_⟩
      intro ha
      rw [ha]
      rfl
  · intro h3
    have hm : ¬ (|currentPrice - EntryMonitor.getBreakoutPrice ob| /
        EntryMonitor.getBreakoutPrice ob * 100 ≤ cfg.maxDeviationForMarket) :=
      not_le.mpr (lt_of_le_of_lt hcfg h3)
    simp only [EntryMonitor.entryStrategy]
    rw [if_neg hm, if_neg (not_le.mpr h3)]
    exact ⟨rfl, rfl, rfl, rfl⟩
  · intro pr hpr h0
    unfold EntryMonitor.getBreakoutPrice
    rw [hpr]
    simp [h0]
  · rintro (h | ⟨pr, hpr, hneg⟩) cc hcc h0c <;>
      unfold EntryMonitor.getBreakoutPrice
    · rw [h, hcc]; simp [h0c]
    · rw [hpr, hcc]; simp [hneg, h0c]
  · rintro (h | ⟨pr, hpr, hneg⟩) (h2 | ⟨cc, hcc, hneg2⟩) <;>
      unfold EntryMonitor.getBreakoutPrice
    · rw [h, h2]
    · rw [h, hcc]; simp [hneg2]
    · rw [hpr, h2]; simp [hneg]
    · rw [hpr, hcc]; simp [hneg, hneg2]

/-- C2 witness: breakout price 100, current price 101.5 — a 1.5% deviation
with thresholds 1%/2% routes to a limit order; resting and unfilled, the
order is cancelled, the pending OPEN position is marked CANCELLED, the OB
stays unprocessed and the run reports "limit_not_filled". -/
theorem C2_witness :
    ((0 : ℚ) < EntryMonitor.getBreakoutPrice obW)
    ∧ (cfgW.maxDeviationForMarket ≤ cfgW.maxDeviationForLimit)
    ∧ (cfgW.maxDeviationForMarket
        < |(203/2 : ℚ) - EntryMonitor.getBreakoutPrice obW| / EntryMonitor.getBreakoutPrice obW * 100)
    ∧ (|(203/2 : ℚ) - EntryMonitor.getBreakoutPrice obW| / EntryMonitor.getBreakoutPrice obW * 100
        ≤ cfgW.maxDeviationForLimit)
    ∧ (EntryMonitor.entryStrategy cfgW EntryMonitor.EntryAction.OPEN obW (203/2)
        { success := true, orderStatus := EntryMonitor.OrderStatusJs.resting }
        { filled := false, reason := ("timeout") } true true true).orderStrategy
      = some ("limit")
    ∧ (EntryMonitor.entryStrategy cfgW EntryMonitor.EntryAction.OPEN obW (203/2)
        { success := true, orderStatus := EntryMonitor.OrderStatusJs.resting }
        { filled := false, reason := ("timeout") } true true true).cancelledOrder = true
    ∧ (EntryMonitor.entryStrategy cfgW EntryMonitor.EntryAction.OPEN obW (203/2)
        { success := true, orderStatus := EntryMonitor.OrderStatusJs.resting }
        { filled := false, reason := ("timeout") } true true true).result
      = ("limit_not_filled")
    ∧ (EntryMonitor.entryStrategy cfgW EntryMonitor.EntryAction.OPEN obW (203/2)
        { success := true, orderStatus := EntryMonitor.OrderStatusJs.resting }
        { filled := false, reason := ("timeout") } true true true).obProcessed = false
    ∧ (EntryMonitor.entryStrategy cfgW EntryMonitor.EntryAction.OPEN obW (203/2)
        { success := true, orderStatus := EntryMonitor.OrderStatusJs.resting }
        { filled := false, reason := ("timeout") } true true true).pendingStatus
      = some ("CANCELLED") := by
  have hbp : (0 : ℚ) < EntryMonitor.getBreakoutPrice obW :=
    of_decide_eq_true (by with_unfolding_all rfl)
  have hcfg : cfgW.maxDeviationForMarket ≤ cfgW.maxDeviationForLimit :=
    of_decide_eq_true (by with_unfolding_all rfl)
  have h1 : cfgW.maxDeviationForMarket
      < |(203/2 : ℚ) - EntryMonitor.getBreakoutPrice obW| / EntryMonitor.getBreakoutPrice obW * 100 :=
    of_decide_eq_true (by with_unfolding_all rfl)
  have h2 : |(203/2 : ℚ) - EntryMonitor.getBreakoutPrice obW| / EntryMonitor.getBreakoutPrice obW * 100
      ≤ cfgW.maxDeviationForLimit :=
    of_decide_eq_true (by with_unfolding_all rfl)
  have T := C2_entry_routing cfgW EntryMonitor.EntryAction.OPEN obW (203/2)
    { success := true, orderStatus := EntryMonitor.OrderStatusJs.resting }
    { filled := false, reason := ("timeout") } true true true hbp hcfg
  have hlim := T.2.1 h1 h2
  have hinner := hlim.2 rfl rfl rfl
  exact ⟨hbp, hcfg, h1, h2, hlim.1, hinner.1, hinner.2.1, hinner.2.2.1,
    hinner.2.2.2 rfl⟩

/-- Helper: a `jsSlice` that stays within the list is the image of the index
range it covers. -/
theorem jsSlice_eq_map {α : Type} [Inhabited α] (l : List α) (a b : ℕ)
    (hb : b ≤ l.length) :
    jsSlice l a b = (List.range' a (b - a)).map (fun j => l.getD j default) := by
  apply List.ext_getElem
  · simp only [jsSlice, List.length_take, List.length_drop, List.length_map,
      List.length_range']
    omega
  · intro n h1 h2
    have hn : n < b - a := by
      simpa only [List.length_map, List.length_range'] using h2
    have hna : a + n < l.length := by omega
    simp only [jsSlice, List.getElem_take, List.getElem_drop, List.getElem_map,
      List.getElem_range', Nat.one_mul]
    rw [List.getD_eq_getElem l default hna]

/-- Helper: `Math.max` of a spread list bounds strictly below `c` exactly
when every element does. -/
theorem foldl_max_lt (xs : List ℚ) (x c : ℚ) :
    xs.foldl max x < c ↔ x < c ∧ ∀ y ∈ xs, y < c := by
  induction xs generalizing x with
  | nil => simp
  | cons a xs ih =>
    rw [List.foldl_cons, ih]
    simp only [max_lt_iff, List.mem_cons]
    constructor
    · rintro ⟨⟨hx, ha⟩, hall⟩
      exact ⟨hx, fun y hy => hy.elim (fun h => h ▸ ha) (hall y)⟩
    · rintro ⟨hx, hall⟩
      exact ⟨⟨hx, hall a (Or.inl rfl)⟩, fun y hy => hall y (Or.inr hy)⟩

/-- Helper: the `Math.min` counterpart. -/
theorem lt_foldl_min (xs : List ℚ) (x c : ℚ) :
    c < xs.foldl min x ↔ c < x ∧ ∀ y ∈ xs, c < y := by
  induction xs generalizing x with
  | nil => simp
  | cons a xs ih =>
    rw [List.foldl_cons, ih]
    simp only [lt_min_iff, List.mem_cons]
    constructor
    · rintro ⟨⟨hx, ha⟩, hall⟩
      exact ⟨hx, fun y hy => hy.elim (fun h => h ▸ ha) (hall y)⟩
    · rintro ⟨hx, hall⟩
      exact ⟨⟨hx, hall a (Or.inl rfl)⟩, fun y hy => hall y (Or.inr hy)⟩

/-- Helper: `jsMathMax` of a spread list is below `c` exactly when every
element is. -/
theorem jsMathMax_lt {l : List ℚ} {m : ℚ} (h : jsMathMax l = some m) (c : ℚ) :
    m < c ↔ ∀ y ∈ l, y < c := by
  cases l with
  | nil => cases h
  | cons x xs =>
    simp only [jsMathMax, Option.some.injEq] at h
    subst h
    rw [foldl_max_lt]
    simp only [List.mem_cons]
    constructor
    · rintro ⟨hx, hall⟩ y hy
      exact hy.elim (fun h => h ▸ hx) (hall y)
    · intro hall
      exact ⟨hall x (Or.inl rfl), fun y hy => hall y (Or.inr hy)⟩

/-- Helper: the `jsMathMin` counterpart. -/
theorem lt_jsMathMin {l : List ℚ} {m : ℚ} (h : jsMathMin l = some m) (c : ℚ) :
    c < m ↔ ∀ y ∈ l, c < y := by
  cases l with
  | nil => cases h
  | cons x xs =>
    simp only [jsMathMin, Option.some.injEq] at h
    subst h
    rw [lt_foldl_min]
    simp only [List.mem_cons]
    constructor
    · rintro ⟨hx, hall⟩ y hy
      exact hy.elim (fun h => h ▸ hx) (hall y)
    · intro hall
      exact ⟨hall x (Or.inl rfl), fun y hy => hall y (Or.inr hy)⟩

/-- Helper: `jsMathMax` of a non-empty list is defined. -/
theorem jsMathMax_of_ne_nil {l : List ℚ} (h : l ≠ []) : ∃ m, jsMathMax l = some m := by
  cases l with
  | nil => exact absurd rfl h
  | cons x xs => exact ⟨xs.foldl max x, rfl⟩

/-- Helper: `jsMathMin` of a non-empty list is defined. -/
theorem jsMathMin_of_ne_nil {l : List ℚ} (h : l ≠ []) : ∃ m, jsMathMin l = some m := by
  cases l with
  | nil => exact absurd rfl h
  | cons x xs => exact ⟨xs.foldl min x, rfl⟩

/-- Helper: the swing-high test, in indexed form. -/
theorem isSwingHighAt_iff (klines : List Candle) (sl i : ℕ)
    (h1 : 1 ≤ sl) (h2 : sl ≤ i) (h3 : i < klines.length) :
    Detector.isSwingHighAt klines sl i = true ↔
      ∀ j, i - sl < j → j ≤ i →
        (klines.getD j default).high < (klines.getD (i - sl) default).high := by
  have hb : i + 1 ≤ klines.length := by omega
  have hs : (i + 1) - (i - sl + 1) = sl := by omega
  have hwin : jsSlice klines (i - sl + 1) (i + 1)
      = (List.range' (i - sl + 1) sl).map (fun j => klines.getD j default) := by
    rw [jsSlice_eq_map klines _ _ hb, hs]
  have hmap : (jsSlice klines (i - sl + 1) (i + 1)).map Candle.high
      = (List.range' (i - sl + 1) sl).map (fun j => (klines.getD j default).high) := by
    rw [hwin, List.map_map]
    rfl
  have hne : (List.range' (i - sl + 1) sl).map
      (fun j => (klines.getD j default).high) ≠ [] := by
    intro hc
    rw [List.map_eq_nil_iff] at hc
    have := List.length_range' (i - sl + 1) 1 sl
    rw [hc] at this
    simp at this
    omega
  obtain ⟨m, hm⟩ := jsMathMax_of_ne_nil hne
  simp only [Detector.isSwingHighAt]
  rw [hmap]
  simp only [hm]
  rw [decide_eq_true_iff, jsMathMax_lt hm]
  constructor
  · intro hall j hj1 hj2
    exact hall _ (List.mem_map.mpr
      ⟨j, List.mem_range'_1.mpr ⟨by omega, by omega⟩, rfl⟩)
  · intro hall y hy
    obtain ⟨j, hj, rfl⟩ := List.mem_map.mp hy
    rw [List.mem_range'_1] at hj
    exact hall j (by omega) (by omega)

/-- Helper: the swing-low test, in indexed form. -/
theorem isSwingLowAt_iff (klines : List Candle) (sl i : ℕ)
    (h1 : 1 ≤ sl) (h2 : sl ≤ i) (h3 : i < klines.length) :
    Detector.isSwingLowAt klines sl i = true ↔
      ∀ j, i - sl < j → j ≤ i →
        (klines.getD (i - sl) default).low < (klines.getD j default).low := by
  have hb : i + 1 ≤ klines.length := by omega
  have hs : (i + 1) - (i - sl + 1) = sl := by omega
  have hwin : jsSlice klines (i - sl + 1) (i + 1)
      = (List.range' (i - sl + 1) sl).map (fun j => klines.getD j default) := by
    rw [jsSlice_eq_map klines _ _ hb, hs]
  have hmap : (jsSlice klines (i - sl + 1) (i + 1)).map Candle.low
      = (List.range' (i - sl + 1) sl).map (fun j => (klines.getD j default).low) := by
    rw [hwin, List.map_map]
    rfl
  have hne : (List.range' (i - sl + 1) sl).map
      (fun j => (klines.getD j default).low) ≠ [] := by
    intro hc
    rw [List.map_eq_nil_iff] at hc
    have := List.length_range' (i - sl + 1) 1 sl
    rw [hc] at this
    simp at this
    omega
  obtain ⟨m, hm⟩ := jsMathMin_of_ne_nil hne
  simp only [Detector.isSwingLowAt]
  rw [hmap]
  simp only [hm]
  rw [decide_eq_true_iff, lt_jsMathMin hm]
  constructor
  · intro hall j hj1 hj2
    exact hall _ (List.mem_map.mpr
      ⟨j, List.mem_range'_1.mpr ⟨by omega, by omega⟩, rfl⟩)
  · intro hall y hy
    obtain ⟨j, hj, rfl⟩ := List.mem_map.mp hy
    rw [List.mem_range'_1] at hj
    exact hall j (by omega) (by omega)

/-- C5: for every candle series and index `i ≥ swingLength` (with at least
one candle in the window and `i` in range), a swing-high is recorded at the
reference index `r = i - swingLength` exactly when the high at `r` strictly
exceeds every high strictly after `r` up to and including `i` — that is,
strictly exceeds their maximum (symmetrically for swing-lows); `updatedSwing*`
record precisely when the test fires, so any recorded swing-high's high is
strictly greater than every high in the following `swingLength` candles at
the moment it is recorded. -/
theorem C5_swing_detection (klines : List Candle) (sl i : ℕ)
    (h1 : 1 ≤ sl) (h2 : sl ≤ i) (h3 : i < klines.length) :
    (Detector.isSwingHighAt klines sl i = true ↔
      ∀ j, i - sl < j → j ≤ i →
        (klines.getD j default).high < (klines.getD (i - sl) default).high)
    ∧ (Detector.isSwingLowAt klines sl i = true ↔
      ∀ j, i - sl < j → j ≤ i →
        (klines.getD (i - sl) default).low < (klines.getD j default).low)
    ∧ (∀ cur, Detector.updatedSwingHigh klines sl i cur
        = (if Detector.isSwingHighAt klines sl i
           then some (Detector.swingOfCandle (klines.getD (i - sl) default) (i - sl))
           else cur))
    ∧ (∀ cur, Detector.updatedSwingLow klines sl i cur
        = (if Detector.isSwingLowAt klines sl i
           then some (Detector.swingOfCandle (klines.getD (i - sl) default) (i - sl))
           else cur))
    ∧ (Detector.isSwingHighAt klines sl i = true →
        ∀ j, i - sl < j → j ≤ i →
          (klines.getD j default).high < (klines.getD (i - sl) default).high) :=
  ⟨isSwingHighAt_iff klines sl i h1 h2 h3,
   isSwingLowAt_iff klines sl i h1 h2 h3,
   fun _ => rfl,
   fun _ => rfl,
   fun h => (isSwingHighAt_iff klines sl i h1 h2 h3).mp h⟩

/-- C5 witness: on `ex4` with `swingLength = 2` at iteration `i = 6` the
swing-high test fires at reference index 4 (high 110 beats 105 and 104). -/
theorem C5_witness :
    ((1 ≤ 2 ∧ 2 ≤ 6 ∧ 6 < ex4.length)
    ∧ (Detector.isSwingHighAt ex4 2 6 = true ↔
        ∀ j, 6 - 2 < j → j ≤ 6 →
          (ex4.getD j default).high < (ex4.getD (6 - 2) default).high))
    ∧ Detector.isSwingHighAt ex4 2 6 = true :=
  ⟨⟨⟨by decide, by decide, of_decide_eq_true (by with_unfolding_all rfl)⟩,
    (C5_swing_detection ex4 2 6 (by decide) (by decide)
      (of_decide_eq_true (by with_unfolding_all rfl))).1⟩,
   of_decide_eq_true (by with_unfolding_all rfl)⟩

/-- Helper: the bullish box fold keeps bottom at or below top (both are set
to the body extremes of one and the same candle whenever they change). -/
theorem foldl_bullishBoxStep_le (l : List (ℕ × Candle)) :
    ∀ acc : ℚ × ℚ × ℕ, acc.1 ≤ acc.2.1 →
      (l.foldl Detector.bullishBoxStep acc).1 ≤ (l.foldl Detector.bullishBoxStep acc).2.1 := by
  induction l with
  | nil => intro acc h; exact h
  | cons jc l ih =>
    intro acc h
    rw [List.foldl_cons]
    apply ih
    simp only [Detector.bullishBoxStep]
    split
    · exact min_le_max
    · exact h

/-- Helper: the bearish box fold keeps bottom at or below top. -/
theorem foldl_bearishBoxStep_le (l : List (ℕ × Candle)) :
    ∀ acc : ℚ × ℚ × ℕ, acc.1 ≤ acc.2.1 →
      (l.foldl Detector.bearishBoxStep acc).1 ≤ (l.foldl Detector.bearishBoxStep acc).2.1 := by
  induction l with
  | nil => intro acc h; exact h
  | cons jc l ih =>
    intro acc h
    rw [List.foldl_cons]
    apply ih
    simp only [Detector.bearishBoxStep]
    split
    · exact min_le_max
    · exact h

/-- Helper: a non-empty bullish box selection has bottom ≤ top. -/
theorem selectBullishBox_le (l : List Candle) (h : l ≠ []) :
    (Detector.selectBullishBox l).1 ≤ (Detector.selectBullishBox l).2.1 := by
  cases l with
  | nil => exact absurd rfl h
  | cons c0 rest =>
    unfold Detector.selectBullishBox
    exact foldl_bullishBoxStep_le _ _ min_le_max

/-- Helper: a non-empty bearish box selection has bottom ≤ top. -/
theorem selectBearishBox_le (l : List Candle) (h : l ≠ []) :
    (Detector.selectBearishBox l).1 ≤ (Detector.selectBearishBox l).2.1 := by
  cases l with
  | nil => exact absurd rfl h
  | cons c0 rest =>
    unfold Detector.selectBearishBox
    exact foldl_bearishBoxStep_le _ _ min_le_max

/-- Helper: the candidate a bullish breakout pushes satisfies the per-OB
report. -/
theorem bullishOBAt_report (p : Detector.DetParams) (klines : List Candle)
    (i : ℕ) (sh : Detector.Swing) (hne : jsSlice klines sh.index i ≠ []) :
    Detector.ObReport p klines (Detector.bullishOBAt p klines i sh) := by
  constructor
  · show (Detector.selectBullishBox (jsSlice klines sh.index i)).1
      ≤ (Detector.selectBullishBox (jsSlice klines sh.index i)).2.1
    exact selectBullishBox_le _ hne
  · show (if Detector.confidenceThreshold p klines sh.index i
        ≤ ((jsSlice klines sh.index i).getD
            (Detector.selectBullishBox (jsSlice klines sh.index i)).2.2 default).volume
      then ("high") else ("low")) = ("high") ↔ _
    split
    · next hth => exact iff_of_true rfl hth
    · next hth => exact iff_of_false (by decide) hth

/-- Helper: the candidate a bearish breakdown pushes satisfies the per-OB
report. -/
theorem bearishOBAt_report (p : Detector.DetParams) (klines : List Candle)
    (i : ℕ) (sl : Detector.Swing) (hne : jsSlice klines sl.index i ≠ []) :
    Detector.ObReport p klines (Detector.bearishOBAt p klines i sl) := by
  constructor
  · show (Detector.selectBearishBox (jsSlice klines sl.index i)).1
      ≤ (Detector.selectBearishBox (jsSlice klines sl.index i)).2.1
    exact selectBearishBox_le _ hne
  · show (if Detector.confidenceThreshold p klines sl.index i
        ≤ ((jsSlice klines sl.index i).getD
            (Detector.selectBearishBox (jsSlice klines sl.index i)).2.2 default).volume
      then ("high") else ("low")) = ("high") ↔ _
    split
    · next hth => exact iff_of_true rfl hth
    · next hth => exact iff_of_false (by decide) hth

/-- Helper: the three possible outcomes of the bullish block — nothing
happens; the swing is consumed (crossed) without a push; or the swing is
consumed and `bullishOBAt` is appended. -/
theorem bullishStep_spec (p : Detector.DetParams) (klines : List Candle) (i : ℕ)
    (sw : Option Detector.Swing) (obs : List Detector.OrderBlockCandidate) :
    Detector.bullishStep p klines i sw obs = (sw, obs)
    ∨ ∃ sh, sw = some sh ∧ sh.crossed = false ∧
        (Detector.bullishStep p klines i sw obs = (some { sh with crossed := true }, obs)
         ∨ (Detector.bullishStep p klines i sw obs
              = (some { sh with crossed := true },
                 obs ++ [Detector.bullishOBAt p klines i sh])
            ∧ jsSlice klines sh.index i ≠ [])) := by
  cases sw with
  | none => left; rfl
  | some sh =>
    by_cases hc : sh.crossed = false ∧ sh.high < (klines.getD i default).close
    · by_cases hs : (if 0 < p.volumeParam then
          decide (Detector.getVolumeThreshold klines p.sqrtFn (i - p.volumeLookback) i
            p.volumeMethod p.volumeParam ≤ (klines.getD i default).volume)
        else true) = true
      · by_cases hsr : jsSlice klines sh.index i = []
        · right
          refine ⟨sh, rfl, hc.1, Or.inl ?_⟩
          simp only [Detector.bullishStep]
          rw [if_pos hc, if_pos hs, if_pos hsr]
        · by_cases hatr : (match p.atr with
            | none => true
            | some a => if a = 0 then true
                else decide (|(Detector.bullishOBAt p klines i sh).high
                  - (Detector.bullishOBAt p klines i sh).low| ≤ a * p.maxATRMultiplier)) = true
          · right
            refine ⟨sh, rfl, hc.1, Or.inr ⟨?_, hsr⟩⟩
            simp only [Detector.bullishStep]
            rw [if_pos hc, if_pos hs, if_neg hsr, if_pos hatr]
          · right
            refine ⟨sh, rfl, hc.1, Or.inl ?_⟩
            simp only [Detector.bullishStep]
            rw [if_pos hc, if_pos hs, if_neg hsr, if_neg hatr]
      · left
        simp only [Detector.bullishStep]
        rw [if_pos hc, if_neg hs]
    · left
      simp only [Detector.bullishStep]
      rw [if_neg hc]

/-- Helper: the bearish counterpart of `bullishStep_spec`. -/
theorem bearishStep_spec (p : Detector.DetParams) (klines : List Candle) (i : ℕ)
    (sw : Option Detector.Swing) (obs : List Detector.OrderBlockCandidate) :
    Detector.bearishStep p klines i sw obs = (sw, obs)
    ∨ ∃ sl, sw = some sl ∧ sl.crossed = false ∧
        (Detector.bearishStep p klines i sw obs = (some { sl with crossed := true }, obs)
         ∨ (Detector.bearishStep p klines i sw obs
              = (some { sl with crossed := true },
                 obs ++ [Detector.bearishOBAt p klines i sl])
            ∧ jsSlice klines sl.index i ≠ [])) := by
  cases sw with
  | none => left; rfl
  | some sl =>
    by_cases hc : sl.crossed = false ∧ (klines.getD i default).close < sl.low
    · by_cases hs : (if 0 < p.volumeParam then
          decide (Detector.getVolumeThreshold klines p.sqrtFn (i - p.volumeLookback) i
            p.volumeMethod p.volumeParam ≤ (klines.getD i default).volume)
        else true) = true
      · by_cases hsr : jsSlice klines sl.index i = []
        · right
          refine ⟨sl, rfl, hc.1, Or.inl ?_⟩
          simp only [Detector.bearishStep]
          rw [if_pos hc, if_pos hs, if_pos hsr]
        · by_cases hatr : (match p.atr with
            | none => true
            | some a => if a = 0 then true
                else decide (|(Detector.bearishOBAt p klines i sl).high
                  - (Detector.bearishOBAt p klines i sl).low| ≤ a * p.maxATRMultiplier)) = true
          · right
            refine ⟨sl, rfl, hc.1, Or.inr ⟨?_, hsr⟩⟩
            simp only [Detector.bearishStep]
            rw [if_pos hc, if_pos hs, if_neg hsr, if_pos hatr]
          · right
            refine ⟨sl, rfl, hc.1, Or.inl ?_⟩
            simp only [Detector.bearishStep]
            rw [if_pos hc, if_pos hs, if_neg hsr, if_neg hatr]
      · left
        simp only [Detector.bearishStep]
        rw [if_pos hc, if_neg hs]
    · left
      simp only [Detector.bearishStep]
      rw [if_neg hc]

/-- Helper: the pair invariant only weakens as the bound grows. -/
theorem swingPairInv_mono {sl b b2 : ℕ} (h : b ≤ b2) {sw : Option Detector.Swing}
    {obs : List Detector.OrderBlockCandidate} (hI : Detector.SwingPairInv sl b sw obs) :
    Detector.SwingPairInv sl b2 sw obs := by
  obtain ⟨h1, h2, h3, h4⟩ := hI
  exact ⟨fun ob hob => lt_of_lt_of_le (h1 ob hob) h,
    fun s hs => lt_of_lt_of_le (h2 s hs) h, h3, h4⟩

/-- Helper: a swing held after the swing-high update predates `i + 1`, and if
it matches a recorded candidate's swing it is crossed. -/
theorem updatedSwingHigh_facts (p : Detector.DetParams) (klines : List Candle)
    (i : ℕ) (sw : Option Detector.Swing) (obs : List Detector.OrderBlockCandidate)
    (hsl : p.swingLength ≤ i)
    (hI1 : ∀ ob ∈ obs, ob.swingIndex + p.swingLength < i)
    (hI2 : ∀ s, sw = some s → s.index + p.swingLength < i)
    (hI3 : ∀ ob ∈ obs, ∀ s, sw = some s → s.index = ob.swingIndex → s.crossed = true) :
    (∀ s, Detector.updatedSwingHigh klines p.swingLength i sw = some s →
      s.index + p.swingLength ≤ i)
    ∧ (∀ ob ∈ obs, ∀ s, Detector.updatedSwingHigh klines p.swingLength i sw = some s →
        s.index = ob.swingIndex → s.crossed = true) := by
  constructor
  · intro s hs
    unfold Detector.updatedSwingHigh at hs
    split at hs
    · injection hs with hs2
      subst hs2
      show (i - p.swingLength) + p.swingLength ≤ i
      omega
    · exact le_of_lt (hI2 s hs)
  · intro ob hob s hs heq
    unfold Detector.updatedSwingHigh at hs
    split at hs
    · injection hs with hs2
      subst hs2
      exfalso
      have := hI1 ob hob
      simp only [Detector.swingOfCandle] at heq
      omega
    · exact hI3 ob hob s hs heq

/-- Helper: the swing-low counterpart. -/
theorem updatedSwingLow_facts (p : Detector.DetParams) (klines : List Candle)
    (i : ℕ) (sw : Option Detector.Swing) (obs : List Detector.OrderBlockCandidate)
    (hsl : p.swingLength ≤ i)
    (hI1 : ∀ ob ∈ obs, ob.swingIndex + p.swingLength < i)
    (hI2 : ∀ s, sw = some s → s.index + p.swingLength < i)
    (hI3 : ∀ ob ∈ obs, ∀ s, sw = some s → s.index = ob.swingIndex → s.crossed = true) :
    (∀ s, Detector.updatedSwingLow klines p.swingLength i sw = some s →
      s.index + p.swingLength ≤ i)
    ∧ (∀ ob ∈ obs, ∀ s, Detector.updatedSwingLow klines p.swingLength i sw = some s →
        s.index = ob.swingIndex → s.crossed = true) := by
  constructor
  · intro s hs
    unfold Detector.updatedSwingLow at hs
    split at hs
    · injection hs with hs2
      subst hs2
      show (i - p.swingLength) + p.swingLength ≤ i
      omega
    · exact le_of_lt (hI2 s hs)
  · intro ob hob s hs heq
    unfold Detector.updatedSwingLow at hs
    split at hs
    · injection hs with hs2
      subst hs2
      exfalso
      have := hI1 ob hob
      simp only [Detector.swingOfCandle] at heq
      omega
    · exact hI3 ob hob s hs heq

/-- Helper: one bullish iteration (swing update then breakout block)
preserves the invariant and the per-OB reports, with the bound advanced. -/
theorem pairInv_bull_step (p : Detector.DetParams) (klines : List Candle) (i : ℕ)
    (sw : Option Detector.Swing) (obs : List Detector.OrderBlockCandidate)
    (hsl : p.swingLength ≤ i)
    (hInv : Detector.SwingPairInv p.swingLength i sw obs)
    (hRep : ∀ ob ∈ obs, Detector.ObReport p klines ob) :
    Detector.SwingPairInv p.swingLength (i + 1)
        (Detector.bullishStep p klines i
          (Detector.updatedSwingHigh klines p.swingLength i sw) obs).1
        (Detector.bullishStep p klines i
          (Detector.updatedSwingHigh klines p.swingLength i sw) obs).2
    ∧ ∀ ob ∈ (Detector.bullishStep p klines i
          (Detector.updatedSwingHigh klines p.swingLength i sw) obs).2,
        Detector.ObReport p klines ob := by
  obtain ⟨hI1, hI2, hI3, hI4⟩ := hInv
  obtain ⟨hsw1a, hsw1b⟩ :=
    updatedSwingHigh_facts p klines i sw obs hsl hI1 hI2 hI3
  rcases bullishStep_spec p klines i
      (Detector.updatedSwingHigh klines p.swingLength i sw) obs
    with hid | ⟨sh, hsw, hcr, hcase⟩
  · rw [hid]
    dsimp only
    refine ⟨⟨fun ob hob => by have := hI1 ob hob; omega,
      fun s hs => by have := hsw1a s hs; omega, hsw1b, hI4⟩, hRep⟩
  · rcases hcase with hcross | ⟨hpush, hsrne⟩
    · rw [hcross]
      dsimp only
      refine ⟨⟨fun ob hob => by have := hI1 ob hob; omega, ?_, ?_, hI4⟩, hRep⟩
      · intro s hs
        injection hs with hs2
        subst hs2
        show sh.index + p.swingLength < i + 1
        have := hsw1a sh hsw
        omega
      · intro ob hob s hs heq
        injection hs with hs2
        subst hs2
        rfl
    · rw [hpush]
      dsimp only
      refine ⟨⟨?_, ?_, ?_, ?_⟩, ?_⟩
      · intro ob hob
        rw [List.mem_append] at hob
        rcases hob with hob | hob
        · have := hI1 ob hob; omega
        · rw [List.mem_singleton] at hob
          subst hob
          show sh.index + p.swingLength < i + 1
          have := hsw1a sh hsw
          omega
      · intro s hs
        injection hs with hs2
        subst hs2
        show sh.index + p.swingLength < i + 1
        have := hsw1a sh hsw
        omega
      · intro ob hob s hs heq
        injection hs with hs2
        subst hs2
        rfl
      · rw [List.map_append, List.map_singleton, List.nodup_append]
        refine ⟨hI4, List.nodup_singleton _, ?_⟩
        intro x hx hx2
        rw [List.mem_singleton] at hx2
        obtain ⟨ob2, hob2, hval⟩ := List.mem_map.mp hx
        have heq : sh.index = ob2.swingIndex := by
          rw [hval]
          exact hx2.symm
        have := hsw1b ob2 hob2 sh hsw heq
        rw [this] at hcr
        cases hcr
      · intro ob hob
        rw [List.mem_append] at hob
        rcases hob with hob | hob
        · exact hRep ob hob
        · rw [List.mem_singleton] at hob
          subst hob
          exact bullishOBAt_report p klines i sh hsrne

/-- Helper: the bearish counterpart of `pairInv_bull_step`. -/
theorem pairInv_bear_step (p : Detector.DetParams) (klines : List Candle) (i : ℕ)
    (sw : Option Detector.Swing) (obs : List Detector.OrderBlockCandidate)
    (hsl : p.swingLength ≤ i)
    (hInv : Detector.SwingPairInv p.swingLength i sw obs)
    (hRep : ∀ ob ∈ obs, Detector.ObReport p klines ob) :
    Detector.SwingPairInv p.swingLength (i + 1)
        (Detector.bearishStep p klines i
          (Detector.updatedSwingLow klines p.swingLength i sw) obs).1
        (Detector.bearishStep p klines i
          (Detector.updatedSwingLow klines p.swingLength i sw) obs).2
    ∧ ∀ ob ∈ (Detector.bearishStep p klines i
          (Detector.updatedSwingLow klines p.swingLength i sw) obs).2,
        Detector.ObReport p klines ob := by
  obtain ⟨hI1, hI2, hI3, hI4⟩ := hInv
  obtain ⟨hsw1a, hsw1b⟩ :=
    updatedSwingLow_facts p klines i sw obs hsl hI1 hI2 hI3
  rcases bearishStep_spec p klines i
      (Detector.updatedSwingLow klines p.swingLength i sw) obs
    with hid | ⟨sh, hsw, hcr, hcase⟩
  · rw [hid]
    dsimp only
    refine ⟨⟨fun ob hob => by have := hI1 ob hob; omega,
      fun s hs => by have := hsw1a s hs; omega, hsw1b, hI4⟩, hRep⟩
  · rcases hcase with hcross | ⟨hpush, hsrne⟩
    · rw [hcross]
      dsimp only
      refine ⟨⟨fun ob hob => by have := hI1 ob hob; omega, ?_, ?_, hI4⟩, hRep⟩
      · intro s hs
        injection hs with hs2
        subst hs2
        show sh.index + p.swingLength < i + 1
        have := hsw1a sh hsw
        omega
      · intro ob hob s hs heq
        injection hs with hs2
        subst hs2
        rfl
    · rw [hpush]
      dsimp only
      refine ⟨⟨?_, ?_, ?_, ?_⟩, ?_⟩
      · intro ob hob
        rw [List.mem_append] at hob
        rcases hob with hob | hob
        · have := hI1 ob hob; omega
        · rw [List.mem_singleton] at hob
          subst hob
          show sh.index + p.swingLength < i + 1
          have := hsw1a sh hsw
          omega
      · intro s hs
        injection hs with hs2
        subst hs2
        show sh.index + p.swingLength < i + 1
        have := hsw1a sh hsw
        omega
      · intro ob hob s hs heq
        injection hs with hs2
        subst hs2
        rfl
      · rw [List.map_append, List.map_singleton, List.nodup_append]
        refine ⟨hI4, List.nodup_singleton _, ?_⟩
        intro x hx hx2
        rw [List.mem_singleton] at hx2
        obtain ⟨ob2, hob2, hval⟩ := List.mem_map.mp hx
        have heq : sh.index = ob2.swingIndex := by
          rw [hval]
          exact hx2.symm
        have := hsw1b ob2 hob2 sh hsw heq
        rw [this] at hcr
        cases hcr
      · intro ob hob
        rw [List.mem_append] at hob
        rcases hob with hob | hob
        · exact hRep ob hob
        · rw [List.mem_singleton] at hob
          subst hob
          exact bearishOBAt_report p klines i sh hsrne

/-- Helper: one full main-loop iteration preserves both directions'
invariants and reports. -/
theorem detStep_inv (p : Detector.DetParams) (klines : List Candle)
    (st : Detector.DetState) (i : ℕ) (hsl : p.swingLength ≤ i)
    (hb : Detector.SwingPairInv p.swingLength i st.lastSwingHigh st.bullishOBs)
    (hbr : ∀ ob ∈ st.bullishOBs, Detector.ObReport p klines ob)
    (he : Detector.SwingPairInv p.swingLength i st.lastSwingLow st.bearishOBs)
    (her : ∀ ob ∈ st.bearishOBs, Detector.ObReport p klines ob) :
    Detector.SwingPairInv p.swingLength (i + 1)
        (Detector.detStep p klines st i).lastSwingHigh
        (Detector.detStep p klines st i).bullishOBs
    ∧ (∀ ob ∈ (Detector.detStep p klines st i).bullishOBs, Detector.ObReport p klines ob)
    ∧ Detector.SwingPairInv p.swingLength (i + 1)
        (Detector.detStep p klines st i).lastSwingLow
        (Detector.detStep p klines st i).bearishOBs
    ∧ (∀ ob ∈ (Detector.detStep p klines st i).bearishOBs, Detector.ObReport p klines ob) := by
  by_cases hw : jsSlice klines (i - p.swingLength + 1) (i + 1) = []
  · have hred : Detector.detStep p klines st i = st := by
      simp only [Detector.detStep]
      rw [if_pos hw]
    rw [hred]
    exact ⟨swingPairInv_mono (Nat.le_succ i) hb, hbr,
      swingPairInv_mono (Nat.le_succ i) he, her⟩
  · have hred : Detector.detStep p klines st i
        = { bullishOBs := (Detector.bullishStep p klines i
              (Detector.updatedSwingHigh klines p.swingLength i st.lastSwingHigh)
              st.bullishOBs).2,
            bearishOBs := (Detector.bearishStep p klines i
              (Detector.updatedSwingLow klines p.swingLength i st.lastSwingLow)
              st.bearishOBs).2,
            lastSwingHigh := (Detector.bullishStep p klines i
              (Detector.updatedSwingHigh klines p.swingLength i st.lastSwingHigh)
              st.bullishOBs).1,
            lastSwingLow := (Detector.bearishStep p klines i
              (Detector.updatedSwingLow klines p.swingLength i st.lastSwingLow)
              st.bearishOBs).1 } := by
      simp only [Detector.detStep]
      rw [if_neg hw]
    rw [hred]
    have hbull := pairInv_bull_step p klines i st.lastSwingHigh st.bullishOBs hsl hb hbr
    have hbear := pairInv_bear_step p klines i st.lastSwingLow st.bearishOBs hsl he her
    exact ⟨hbull.1, hbull.2, hbear.1, hbear.2⟩

/-- Helper: running the main loop from any index `a ≥ swingLength` preserves
the invariants, advancing the bound to `a + n`. -/
theorem detRun_inv (p : Detector.DetParams) (klines : List Candle) :
    ∀ (n a : ℕ) (st : Detector.DetState), p.swingLength ≤ a →
      Detector.SwingPairInv p.swingLength a st.lastSwingHigh st.bullishOBs →
      (∀ ob ∈ st.bullishOBs, Detector.ObReport p klines ob) →
      Detector.SwingPairInv p.swingLength a st.lastSwingLow st.bearishOBs →
      (∀ ob ∈ st.bearishOBs, Detector.ObReport p klines ob) →
      Detector.SwingPairInv p.swingLength (a + n)
          (((List.range' a n).foldl (Detector.detStep p klines) st)).lastSwingHigh
          (((List.range' a n).foldl (Detector.detStep p klines) st)).bullishOBs
      ∧ (∀ ob ∈ (((List.range' a n).foldl (Detector.detStep p klines) st)).bullishOBs,
          Detector.ObReport p klines ob)
      ∧ Detector.SwingPairInv p.swingLength (a + n)
          (((List.range' a n).foldl (Detector.detStep p klines) st)).lastSwingLow
          (((List.range' a n).foldl (Detector.detStep p klines) st)).bearishOBs
      ∧ (∀ ob ∈ (((List.range' a n).foldl (Detector.detStep p klines) st)).bearishOBs,
          Detector.ObReport p klines ob) := by
  intro n
  induction n with
  | zero =>
    intro a st ha h1 h2 h3 h4
    exact ⟨h1, h2, h3, h4⟩
  | succ n ih =>
    intro a st ha h1 h2 h3 h4
    rw [List.range'_succ, List.foldl_cons]
    have hstep := detStep_inv p klines st a ha h1 h2 h3 h4
    have hrun := ih (a + 1) (Detector.detStep p klines st a) (by omega)
      hstep.1 hstep.2.1 hstep.2.2.1 hstep.2.2.2
    have harith : a + (n + 1) = (a + 1) + n := by omega
    rw [harith]
    exact hrun

/-- Helper: the detector's output satisfies the per-OB report for every
emitted candidate and carries no two candidates from the same swing, in
either direction. -/
theorem findPotentialOrderBlocks_inv (klines : List Candle) (p : Detector.DetParams) :
    (∀ ob ∈ (Detector.findPotentialOrderBlocks klines p).bullishOBs,
      Detector.ObReport p klines ob)
    ∧ ((Detector.findPotentialOrderBlocks klines p).bullishOBs.map
        Detector.OrderBlockCandidate.swingIndex).Nodup
    ∧ (∀ ob ∈ (Detector.findPotentialOrderBlocks klines p).bearishOBs,
        Detector.ObReport p klines ob)
    ∧ ((Detector.findPotentialOrderBlocks klines p).bearishOBs.map
        Detector.OrderBlockCandidate.swingIndex).Nodup := by
  have hinit : Detector.SwingPairInv p.swingLength p.swingLength none [] := by
    refine ⟨?_, ?_, ?_, ?_⟩
    · intro ob hob
      exact absurd hob (List.not_mem_nil ob)
    · intro s hs
      cases hs
    · intro ob hob
      exact absurd hob (List.not_mem_nil ob)
    · exact List.nodup_nil
  have hrep : ∀ ob ∈ ([] : List Detector.OrderBlockCandidate),
      Detector.ObReport p klines ob :=
    fun ob hob => absurd hob (List.not_mem_nil ob)
  have h := detRun_inv p klines (klines.length - p.swingLength) p.swingLength
    Detector.initDetState (le_refl _) hinit hrep hinit hrep
  exact ⟨h.2.1, h.1.2.2.2, h.2.2.2, h.2.2.1.2.2.2⟩

/-- C4 (amended): every OB candidate emitted by the detector has confidence
"high" exactly when the chosen range-candle's volume meets the volume
threshold computed over the window starting `volumeLookback` candles before
the swing point (clamped to the series start) and ending just before the
breakout candle — `confidenceThreshold` — when the volume filter is enabled
(`volumeParam > 0`; otherwise the threshold is 0). -/
theorem C4_confidence_classification (klines : List Candle)
    (p : Detector.DetParams) (ob : Detector.OrderBlockCandidate)
    (h : ob ∈ (Detector.findPotentialOrderBlocks klines p).bullishOBs
       ∨ ob ∈ (Detector.findPotentialOrderBlocks klines p).bearishOBs) :
    ob.confidence = ("high") ↔
      Detector.confidenceThreshold p klines ob.swingIndex ob.creationIndex
        ≤ ob.obCandle.volume := by
  rcases h with h | h
  · exact ((findPotentialOrderBlocks_inv klines p).1 ob h).2
  · exact ((findPotentialOrderBlocks_inv klines p).2.2.1 ob h).2

/-- C4 counterexample: on `ex4` the detector emits exactly one bullish OB,
from the swing at index 4 broken at index 7, whose range candle has volume
10 and whose confidence is "low"; yet the threshold over the window running
from the swing point to the breakout candle — `klines[4..7)` giving 8, or
`klines[4..8)` giving 10 if the breakout candle is included — is met by that
volume, so the claim as stated would classify it "high".  The code instead
uses the window starting `volumeLookback` candles before the swing
(`klines[0..7)`, threshold 1000). -/
theorem C4_counterexample :
    ((Detector.findPotentialOrderBlocks ex4 p4).bullishOBs.map
        (fun ob => (ob.swingIndex, ob.creationIndex, ob.obCandle.volume, ob.confidence))
      = [(4, 7, 10, ("low"))])
    ∧ ((0 : ℚ) < p4.volumeParam)
    ∧ ¬ ((("low") : String) = ("high") ↔
        Detector.getVolumeThreshold ex4 p4.sqrtFn 4 7 Detector.VolumeMethod.percentile 70
          ≤ 10)
    ∧ ¬ ((("low") : String) = ("high") ↔
        Detector.getVolumeThreshold ex4 p4.sqrtFn 4 8 Detector.VolumeMethod.percentile 70
          ≤ 10) :=
  of_decide_eq_true (by with_unfolding_all rfl)

set_option maxRecDepth 8000 in
/-- C4 witness: the amended classification, instantiated on the candidate
`ex4` produces. -/
theorem C4_witness :
    ((Detector.findPotentialOrderBlocks ex4 p4).bullishOBs.headD default
        ∈ (Detector.findPotentialOrderBlocks ex4 p4).bullishOBs
      ∨ (Detector.findPotentialOrderBlocks ex4 p4).bullishOBs.headD default
        ∈ (Detector.findPotentialOrderBlocks ex4 p4).bearishOBs)
    ∧ (((Detector.findPotentialOrderBlocks ex4 p4).bullishOBs.headD default).confidence
        = ("high") ↔
      Detector.confidenceThreshold p4 ex4
          ((Detector.findPotentialOrderBlocks ex4 p4).bullishOBs.headD default).swingIndex
          ((Detector.findPotentialOrderBlocks ex4 p4).bullishOBs.headD default).creationIndex
        ≤ ((Detector.findPotentialOrderBlocks ex4 p4).bullishOBs.headD default).obCandle.volume) :=
  ⟨Or.inl (of_decide_eq_true (by with_unfolding_all rfl)),
   C4_confidence_classification ex4 p4 _
     (Or.inl (of_decide_eq_true (by with_unfolding_all rfl)))⟩

/-- C6: each swing point yields at most one OB of its type over the whole
detector run — the lists of swing indices behind the emitted bullish and
bearish candidates have no duplicates, for every candle series and every
parameter choice. -/
theorem C6_one_ob_per_swing (klines : List Candle) (p : Detector.DetParams) :
    ((Detector.findPotentialOrderBlocks klines p).bullishOBs.map
      Detector.OrderBlockCandidate.swingIndex).Nodup
    ∧ ((Detector.findPotentialOrderBlocks klines p).bearishOBs.map
      Detector.OrderBlockCandidate.swingIndex).Nodup :=
  ⟨(findPotentialOrderBlocks_inv klines p).2.1,
   (findPotentialOrderBlocks_inv klines p).2.2.2⟩

/-- C9: every emitted OB candidate is well-formed — its price range
satisfies `low ≤ high`, because both bounds are the body extremes of one
single candle chosen from the search window. -/
theorem C9_ob_range_well_formed (klines : List Candle) (p : Detector.DetParams)
    (ob : Detector.OrderBlockCandidate)
    (h : ob ∈ (Detector.findPotentialOrderBlocks klines p).bullishOBs
       ∨ ob ∈ (Detector.findPotentialOrderBlocks klines p).bearishOBs) :
    ob.low ≤ ob.high := by
  rcases h with h | h
  · exact ((findPotentialOrderBlocks_inv klines p).1 ob h).1
  · exact ((findPotentialOrderBlocks_inv klines p).2.2.1 ob h).1

set_option maxRecDepth 8000 in
/-- C9 witness: the candidate emitted on `ex4` has range [90, 95]. -/
theorem C9_witness :
    ((Detector.findPotentialOrderBlocks ex4 p4).bullishOBs.headD default
        ∈ (Detector.findPotentialOrderBlocks ex4 p4).bullishOBs
      ∨ (Detector.findPotentialOrderBlocks ex4 p4).bullishOBs.headD default
        ∈ (Detector.findPotentialOrderBlocks ex4 p4).bearishOBs)
    ∧ ((Detector.findPotentialOrderBlocks ex4 p4).bullishOBs.headD default).low
      ≤ ((Detector.findPotentialOrderBlocks ex4 p4).bullishOBs.headD default).high :=
  ⟨Or.inl (of_decide_eq_true (by with_unfolding_all rfl)),
   C9_ob_range_well_formed ex4 p4 _
     (Or.inl (of_decide_eq_true (by with_unfolding_all rfl)))⟩

end HyperliquidOB
